import Mathlib

/-!
Shallow embedding of the `bio-geneorder` distance core
(`src/ext/libd/{structs.h, invdist.cpp, distances.cpp}`) and verification of
the specification claims about it.

Conventions of the embedding:
* C `int` scalars become `Int` (or `Nat` where the source value is manifestly a
  nonnegative count or index); `short` gene ids become `Int`.
* C arrays written by loops become total functions (`Nat → _` / `Int → _`)
  built by `List.foldl` over the loop ranges with `Function.update` for each
  store, so every store of the source is one update here.
* Reads of uninitialized or out-of-range memory (undefined behaviour in the
  source) read the default value of the total function; each such place is
  marked by a comment.  The one undefined behaviour the claims ask about —
  the unsigned underflow of `genes.size()-1` in `duplicates` — is modelled
  explicitly by an `Option` result.
-/

set_option maxRecDepth 4000

namespace BioGeneorder

/-- Error code `ERR_CONTENT` from structs.h. -/
def ERR_CONTENT : Int := -1

/-- Error code `ERR_DUPLICATES` from structs.h. -/
def ERR_DUPLICATES : Int := -2

/-- Error code `ERR_NOTIMPL` from structs.h. -/
def ERR_NOTIMPL : Int := -5

/-- Hurdle flag bit `HURDLE` from structs.h. -/
def HURDLE : Nat := 1

/-- Hurdle flag bit `GREATHURDLE` from structs.h. -/
def GREATHURDLE : Nat := 2

/-- Hurdle flag bit `SUPERHURDLE` from structs.h. -/
def SUPERHURDLE : Nat := 4

/-- `struct Genome` from structs.h: gene order `pi` (signed ids, `len` is
`pi.length`) plus the `circular` flag. -/
structure Genome where
  pi : List Int
  circular : Bool
deriving Repr, DecidableEq, Inhabited

/-- A genome set is passed to the C functions as `Genome *`; the source
computes the number of chromosomes as `sizeof(pi)/sizeof(Genome *)`, which is
always `1`, so every function only ever reads chromosome `0`. -/
abbrev GenomeSet := List Genome

/-- Chromosome `0` of a set (the only one the source ever reads; reading it
from an empty set is out of bounds in C, here it yields the empty genome). -/
def chr0 (s : GenomeSet) : Genome := s.getD 0 ⟨[], false⟩

/-- `struct component_struct` from structs.h.  The defaults are the values the
source stores before the block scan (`blocks = 0`, `hurdle = 0`,
`left = right = -1`). -/
structure component_t where
  index : Nat := 0
  oriented : Bool := false
  blocks : Nat := 0
  hurdle : Nat := 0
  left : Int := -1
  right : Int := -1
deriving Repr, DecidableEq, Inhabited

/-- In-place store `components[k] = f components[k]` on the component array. -/
def updComp (cs : List component_t) (k : Nat) (f : component_t → component_t) :
    List component_t :=
  cs.set k (f (cs.getD k default))

theorem updComp_length (cs : List component_t) (k : Nat)
    (f : component_t → component_t) : (updComp cs k f).length = cs.length := by
  simp [updComp]

/-- Scan loop of `calculate_offset` (invdist.cpp, lines 10-16): walk `genes2`
looking for `gA` or `-gA`, returning the index, the index plus `num_genes`,
or falling through. -/
def offsetScan (gA : Int) (num_genes : Nat) : List Int → Nat → Int
  | [], _ => ERR_CONTENT
  | x :: rest, i =>
    if x = gA then (i : Int)
    else if x = -gA then (i : Int) + num_genes
    else offsetScan gA num_genes rest (i + 1)

/-- `calculate_offset` (invdist.cpp, lines 3-19).  Reads `g1[0].pi[0]`; on an
empty first chromosome that C read is out of bounds, here it yields `0`. -/
def calculate_offset (g1 g2 : Genome) : Int :=
  offsetScan (g1.pi.getD 0 0) g2.pi.length g2.pi 0

/-- Breakpoint test for one pair `(perm[i], perm[i+1])` in `num_breakpoints`
(invdist.cpp, lines 33-38). -/
def isBreakpoint (perm : Nat → Int) (size : Nat) (i : Nat) : Bool :=
  let pA := perm i
  let pA1 := if pA = (size : Int) then 1 else pA + 1
  let pB := perm (i + 1)
  let pB1 := if pB = (size : Int) then 1 else pB + 1
  pB != pA1 && pA != pB1

/-- `num_breakpoints` (invdist.cpp, lines 21-42).  The loop `i = 2; i < size-1;
i += 2` runs over `List.range' 2 ((size-2)/2) 2` (for the even `size = 2n+2`
used by all callers this is `i ∈ {2, 4, …, 2n}`). -/
def num_breakpoints (perm : Nat → Int) (size : Nat) : Nat :=
  (if perm 1 ≠ 1 then 1 else 0) +
    (List.range' 2 ((size - 2) / 2) 2).countP (isBreakpoint perm size)

/-- Inverse-permutation table of `num_cycles` (invdist.cpp, lines 67-71):
`invperm[perm[i]] = i`.  The C buffer is uninitialized; unwritten entries read
`0` here (the source never reads one on the permutations its callers build). -/
def mkInvperm (perm : Nat → Int) (size : Nat) : Int → Nat :=
  (List.range size).foldl (fun inv i => Function.update inv (perm i) i)
    (fun _ => 0)

/-- Body of the grey-edge loop of `num_cycles` (invdist.cpp, lines 77-98) for
one odd `i`. -/
def geStep (perm : Nat → Int) (invperm : Int → Nat) (ge : Nat → Int) (i : Nat) :
    Nat → Int :=
  let ind := perm i
  let lt := ind < perm (i + 1)
  let j1 := if lt then invperm (ind - 1) else invperm (ind + 1)
  let j2 := if lt then invperm (ind + 2) else invperm (ind - 2)
  let ge1 := if j1 ≠ i - 1 then Function.update ge i (j1 : Int) else ge
  if j2 ≠ i + 2 then Function.update ge1 (i + 1) (j2 : Int) else ge1

/-- Grey-edge table of `num_cycles` (invdist.cpp, lines 66-102): `-1` means no
grey edge.  The odd-`i` loop `i = 1; i < size-1; i += 2` runs over
`List.range' 1 ((size-2)/2) 2`. -/
def mkGreyEdges (perm : Nat → Int) (size : Nat) : Nat → Int :=
  let invperm := mkInvperm perm size
  let ge0 : Nat → Int := fun _ => -1
  let ge1 := if invperm 1 ≠ 1 then Function.update ge0 0 ((invperm 1 : Nat) : Int)
    else ge0
  let ge2 := (List.range' 1 ((size - 2) / 2) 2).foldl (geStep perm invperm) ge1
  let j1 := invperm ((size : Int) - 2)
  if j1 ≠ size - 2 then Function.update ge2 (size - 1) (j1 : Int) else ge2

/-- The `done` / `cycle` buffers of the traversal in `num_cycles`
(invdist.cpp, lines 104-129). -/
structure CycleState where
  done : Nat → Bool
  cycle : Nat → Nat

/-- One store pair `done[v] = 1; cycle[v] = root`. -/
def csMark (st : CycleState) (v root : Nat) : CycleState :=
  { done := Function.update st.done v true
    cycle := Function.update st.cycle v root }

/-- The do-while traversal of one cycle (invdist.cpp, lines 114-126): step to
the black-edge partner, then along the grey edge, until back at `root`.  The
do-while of the source has no bound; a fuel of `size` (one unit per loop
iteration, each visiting two vertices) is ample for every terminating run of
the source.  A grey edge value `-1` would be a negative C index (undefined
behaviour); `Int.toNat` sends it to `0` here. -/
def cycleWalk (ge : Nat → Int) (root : Nat) : Nat → Nat → CycleState → CycleState
  | 0, _, st => st
  | fuel + 1, next, st =>
    let next1 := if next % 2 = 0 then next + 1 else next - 1
    let st1 := csMark st next1 root
    let next2 := (ge next1).toNat
    let st2 := csMark st1 next2 root
    if next2 = root then st2 else cycleWalk ge root fuel next2 st2

/-- Cycle-counting loop of `num_cycles` (invdist.cpp, lines 104-129): returns
the count and the final `done`/`cycle` buffers (the `cycle` labels are reused
by `connected_component` through the shared `labeled` buffer). -/
def cyclePhase (ge : Nat → Int) (size : Nat) : Nat × CycleState :=
  (List.range size).foldl
    (fun acc i =>
      if acc.2.done i = false ∧ ge i ≠ -1 then
        (acc.1 + 1, cycleWalk ge i size i (csMark acc.2 i i))
      else acc)
    (0, ⟨fun _ => false, fun _ => 0⟩)

/-- `num_cycles` (invdist.cpp, lines 44-132), result only. -/
def num_cycles (perm : Nat → Int) (size : Nat) : Nat :=
  (cyclePhase (mkGreyEdges perm size) size).1

/-- The `labeled` buffer as left by `num_cycles`: the cycle label of each
vertex, used by `connected_component` as the initial `parent` array. -/
def cycleLabels (perm : Nat → Int) (size : Nat) : Nat → Nat :=
  (cyclePhase (mkGreyEdges perm size) size).2.cycle

/-- The pop-and-merge while loop of `connected_component` (invdist.cpp, lines
177-184): pop stack entries whose root exceeds `p = parent[i]`, re-rooting
each popped root to `p` and extending `right`.  The stack is the list with its
top at the head; C never pops an empty stack here. -/
def ccPop (p : Nat) : List (Nat × Nat) → (Nat → Nat) → Nat →
    List (Nat × Nat) × (Nat → Nat) × Nat
  | [], parent, right => ([], parent, right)
  | (r, rg) :: rest, parent, right =>
    if p < r then
      ccPop p rest (Function.update parent r p) (if right < rg then rg else right)
    else ((r, rg) :: rest, parent, right)

/-- One iteration of the main scan of `connected_component` (invdist.cpp,
lines 164-195).  State: (stack, parent, finalized component roots in order). -/
def ccStep (ge : Nat → Int) (range : Nat → Nat)
    (st : List (Nat × Nat) × (Nat → Nat) × List Nat) (i : Nat) :
    List (Nat × Nat) × (Nat → Nat) × List Nat :=
  let stack := st.1
  let parent := st.2.1
  let comps := st.2.2
  if ge i = -1 then st
  else if parent i = i then ((i, range i) :: stack, parent, comps)
  else
    let pr := ccPop (parent i) stack parent i
    match pr.1 with
    | [] => ([], pr.2.1, comps)
    | (r, rg) :: rest =>
      let rg1 := if rg < pr.2.2 then pr.2.2 else rg
      if rg1 ≤ i then (rest, pr.2.1, comps ++ [r])
      else ((r, rg1) :: rest, pr.2.1, comps)

/-- Follow `parent` pointers to the root of a union-find tree.  Parents always
point to strictly smaller indices in the source, so fuel `size` is ample. -/
def rootOf (parent : Nat → Nat) : Nat → Nat → Nat
  | 0, i => i
  | fuel + 1, i => if parent i = i then i else rootOf parent fuel (parent i)

/-- `connected_component` (invdist.cpp, lines 134-224).  Input `cyc` is the
`labeled` buffer left by `num_cycles` (the aliasing `parent = cycle =
distmem->labeled` of the source).  Output: the component roots in finalization
order (the `components[].index` array) and the `cc` label of each vertex
(`-1` for self loops).  The source computes the labels by flattening each
union-find tree into a linked list threaded through the `next` buffer and
walking it from the root; the result is the index, in the finalized order, of
the root reached from the vertex by following `parent` pointers, which is what
is computed here. -/
def connected_component (ge : Nat → Int) (cyc : Nat → Nat) (size : Nat) :
    List Nat × (Nat → Int) :=
  let range := (List.range size).foldl
    (fun rg i => if ge i = -1 then rg else Function.update rg (cyc i) i)
    (fun _ => 0)
  let fin := (List.range size).foldl (ccStep ge range) ([], cyc, [])
  let roots := fin.2.2
  let parent := fin.2.1
  (roots, fun i =>
    if ge i = -1 then -1
    else (roots.findIdx (fun r => r == rootOf parent size i) : Int))

/-- Orientation marking of `num_hurdles_and_fortress` (invdist.cpp, lines
266-289): a grey edge `(i, j)` with `i < j` is oriented iff `j - i` is even;
both endpoints are marked.  When `i > j ≥ 0` nothing is stored (the partner
iteration already stored both endpoints, the tables built by `num_cycles`
being symmetric); the C buffer holds stale data from its use as `range`,
never read on such tables. -/
def orientedMap (ge : Nat → Int) (size : Nat) : Nat → Bool :=
  (List.range size).foldl
    (fun ori i =>
      let j := ge i
      if j = -1 then Function.update ori i false
      else if (i : Int) < j then
        if (j.toNat - i) % 2 ≠ 0 then
          Function.update (Function.update ori i false) j.toNat false
        else
          Function.update (Function.update ori i true) j.toNat true
      else ori)
    (fun _ => false)

/-- Block scan of `num_hurdles_and_fortress` (invdist.cpp, lines 348-375).
State: (components, first_comp, last_comp).  The counter `num_block` of the
source is never read and is omitted. -/
def blockScan (cc : Nat → Int) (comps : List component_t) (size : Nat) :
    List component_t × Int × Int :=
  (List.range size).foldl
    (fun st i =>
      let cIdx := cc i
      if cIdx ≠ -1 then
        if (st.1.getD cIdx.toNat default).oriented = false then
          if cIdx ≠ st.2.2 then
            let cs1 := if st.2.2 = -1 then st.1
              else updComp
                (updComp st.1 st.2.2.toNat (fun c => { c with right := cIdx }))
                cIdx.toNat (fun c => { c with left := st.2.2 })
            let first1 := if st.2.2 = -1 then cIdx else st.2.1
            (updComp cs1 cIdx.toNat (fun c => { c with blocks := c.blocks + 1 }),
             first1, cIdx)
          else st
        else st
      else st)
    (comps, -1, -1)

/-- Simple-hurdle marking (invdist.cpp, lines 378-386): an unoriented
component with exactly one block gets flag `HURDLE`; returns the updated
array and the hurdle count. -/
def markSimpleHurdles (cs : List component_t) : List component_t × Nat :=
  (List.range cs.length).foldl
    (fun st i =>
      let c := st.1.getD i default
      if c.oriented = false ∧ c.blocks = 1 then
        (updComp st.1 i (fun c => { c with hurdle := HURDLE }), st.2 + 1)
      else st)
    (cs, 0)

/-- Wrap-around hurdle marking (invdist.cpp, lines 387-392): if the first and
last unoriented components of the scan coincide and that component has two
blocks, it becomes `HURDLE|GREATHURDLE` and is counted.  With
`first = last = -1` the C read `components[-1]` is out of bounds; here it
reads component `0` (unreachable from the callers, which only reach this
point with at least one unoriented component). -/
def markGreatHurdle (cs : List component_t) (first last : Int) (nh : Nat) :
    List component_t × Nat :=
  if first = last ∧ (cs.getD first.toNat default).blocks = 2 then
    (updComp cs first.toNat (fun c => { c with hurdle := HURDLE ||| GREATHURDLE }),
     nh + 1)
  else (cs, nh)

/-- The superhurdle shape test of invdist.cpp, lines 402-407: the left
neighbor equals the right neighbor, is not `-1`, has two blocks, and does not
carry `GREATHURDLE`. -/
def SuperTest (cs : List component_t) (k : Nat) : Prop :=
  (cs.getD k default).left = (cs.getD k default).right ∧
  (cs.getD k default).left ≠ -1 ∧
  (cs.getD (cs.getD k default).left.toNat default).blocks = 2 ∧
  (cs.getD (cs.getD k default).left.toNat default).hurdle &&& GREATHURDLE = 0

instance (cs : List component_t) (k : Nat) : Decidable (SuperTest cs k) := by
  unfold SuperTest
  exact inferInstance

/-- Superhurdle loop of `num_hurdles_and_fortress` (invdist.cpp, lines
397-429): scan components in order; a non-hurdle is skipped; a hurdle passing
the shape test gets flag `SUPERHURDLE`; a hurdle failing it makes the whole
function return `(num_hurdles, 0)` at once.  After a full scan the fortress
flag is set iff `num_hurdles == num_superhurdles` and that count is odd. -/
def superLoop (nh : Nat) (cs : List component_t) (i ns : Nat) : Nat × Nat :=
  if h : i < cs.length then
    let c := cs.getD i default
    if c.hurdle ≠ 0 then
      if c.left = c.right ∧ c.left ≠ -1 then
        let nb := cs.getD c.left.toNat default
        if nb.blocks = 2 ∧ nb.hurdle &&& GREATHURDLE = 0 then
          superLoop nh
            (updComp cs i (fun c => { c with hurdle := c.hurdle ||| SUPERHURDLE }))
            (i + 1) (ns + 1)
        else (nh, 0)
      else (nh, 0)
    else superLoop nh cs (i + 1) ns
  else if nh = ns ∧ ns % 2 = 1 then (nh, 1) else (nh, 0)
termination_by cs.length - i
decreasing_by
  · rw [updComp_length]; omega
  · omega

/-- The superhurdle/fortress phase entered at invdist.cpp line 397. -/
def superPhase (cs : List component_t) (nh : Nat) : Nat × Nat :=
  superLoop nh cs 0 0

/-- Number of components with a nonzero hurdle flag at indices `≥ i`. -/
def countHurdlesFrom (cs : List component_t) (i : Nat) : Nat :=
  if i < cs.length then
    (if (cs.getD i default).hurdle ≠ 0 then 1 else 0) + countHurdlesFrom cs (i + 1)
  else 0
termination_by cs.length - i

/-- Number of components with a nonzero hurdle flag. -/
def countHurdles (cs : List component_t) : Nat := countHurdlesFrom cs 0

/-- `num_hurdles_and_fortress` (invdist.cpp, lines 226-432).  Takes the
grey-edge table and cycle labels left by `num_cycles` (the `perm` parameter of
the source is unused).  Returns `(num_hurdles, num_fortress)`. -/
def num_hurdles_and_fortress (ge : Nat → Int) (cyc : Nat → Nat) (size : Nat) :
    Nat × Nat :=
  let rc := connected_component ge cyc size
  let roots := rc.1
  let cc := rc.2
  if roots.length = 0 then (0, 0)
  else
    let ori := orientedMap ge size
    let comps0 : List component_t := roots.map (fun r => { index := r })
    let comps1 := (List.range size).foldl
      (fun cs i =>
        if ori i then updComp cs (cc i).toNat (fun c => { c with oriented := true })
        else cs)
      comps0
    if (comps1.filter (fun c => c.oriented = false)).length = 0 then (0, 0)
    else
      let bs := blockScan cc comps1 size
      let ms := markSimpleHurdles bs.1
      let mg := markGreatHurdle ms.1 bs.2.1 bs.2.2 ms.2
      if mg.2 < 3 then (mg.2, 0)
      else superPhase mg.1 mg.2

/-- Loop body of the genome-1 mapping of `invdist_noncircular` (invdist.cpp,
lines 453-467) at position `i`. -/
def p1step (g1 : Genome) (p1 : Int → Nat) (i : Nat) : Int → Nat :=
  let g := 2 * g1.pi.getD i 0
  let twoi := 2 * i + 1
  if g > 0 then
    Function.update (Function.update p1 (g - 1) twoi) g (twoi + 1)
  else
    Function.update (Function.update p1 (-g) twoi) (-g - 1) (twoi + 1)

/-- First half of `invdist_noncircular` (invdist.cpp, lines 453-467): map each
gene of genome 1 to its two vertices.  `perm1` is indexed by the doubled gene
value (a C `int`), hence `Int → Nat` here; the C buffer is uninitialized and
unwritten entries read `0`. -/
def buildPerm1 (g1 : Genome) : Int → Nat :=
  (List.range g1.pi.length).foldl (p1step g1) (fun _ => 0)

/-- Second half of `invdist_noncircular` (invdist.cpp, lines 469-488): read
genome 2 starting at `offset` (reversed and negated when `offset ≥
num_genes`), storing each gene's vertex pair by position.  `%` on C ints
truncates toward zero, i.e. `Int.tmod`; a negative resulting index (possible
only for the error offset `-1`) is an out-of-bounds C read, `Int.toNat` sends
it to `0` here. -/
def p2step (g2 : Genome) (num_genes : Nat) (offset : Int) (p2 : Nat → Int)
    (i : Nat) : Nat → Int :=
  let g := if offset < (num_genes : Int) then
      g2.pi.getD ((offset + (i : Int)).tmod num_genes).toNat 0
    else
      - g2.pi.getD ((offset - (i : Int)).tmod num_genes).toNat 0
  let twoi : Nat := 2 * i + 1
  if g > 0 then
    Function.update (Function.update p2 twoi (2 * g - 1)) (twoi + 1) (2 * g)
  else
    Function.update (Function.update p2 twoi (-2 * g)) (twoi + 1) (-2 * g - 1)

/-- Second half of `invdist_noncircular` (invdist.cpp, lines 469-488), one
update of `p2step` per loop iteration. -/
def buildPerm2 (g2 : Genome) (num_genes : Nat) (offset : Int) : Nat → Int :=
  (List.range num_genes).foldl (p2step g2 num_genes offset) (fun _ => 0)

/-- The composed extended permutation of `invdist_noncircular` (invdist.cpp,
lines 489-494): caps `perm[0] = 0`, `perm[n-1] = n-1`, and
`perm[i] = perm1[perm2[i]]` in between, with `n = 2*len(g1) + 2`. -/
def buildPerm (g1 g2 : Genome) (offset : Int) : Nat → Int :=
  let n := 2 * g1.pi.length + 2
  fun i =>
    if i = 0 then 0
    else if i = n - 1 then (n : Int) - 1
    else (buildPerm1 g1 (buildPerm2 g2 g1.pi.length offset i) : Int)

/-- `invdist_noncircular` (invdist.cpp, lines 434-504):
`b - c + num_hurdles + num_fortress` on the extended permutation. -/
def invdist_noncircular (g1 g2 : Genome) (offset : Int) : Int :=
  let n := 2 * g1.pi.length + 2
  let perm := buildPerm g1 g2 offset
  let hf := num_hurdles_and_fortress (mkGreyEdges perm n) (cycleLabels perm n) n
  (num_breakpoints perm n : Int) - (num_cycles perm n : Int) + hf.1 + hf.2

/-- `invdist_circular` (invdist.cpp, lines 506-515). -/
def invdist_circular (g1 g2 : Genome) : Int :=
  invdist_noncircular g1 g2 (calculate_offset g1 g2)

/-- Gene collection loop of `duplicates` / `unequal_content` (distances.cpp,
lines 251-259): absolute value of every gene; with the constant chromosome
count `1`, only chromosome `0` contributes. -/
def collectGenes (s : GenomeSet) : List Int := (chr0 s).pi.map (fun x => |x|)

/-- Adjacent-equality scan of `duplicates` (distances.cpp, lines 263-268),
on the already sorted vector. -/
def adjDup : List Int → Bool
  | a :: b :: t => a == b || adjDup (b :: t)
  | _ => false

/-- `duplicates` (distances.cpp, lines 242-269).  On an empty gene collection
the loop bound `genes.size()-1` underflows (unsigned) and the first read
`genes[0]` is already out of bounds: modelled as `none`.  Otherwise the bound
`size-1` is exact and the scan is total. -/
def duplicates (s : GenomeSet) : Option Bool :=
  let genes := collectGenes s
  if genes.isEmpty then none
  else some (adjDup (List.insertionSort (· ≤ ·) genes))

/-- Element-wise comparison loop of `unequal_content` (distances.cpp, lines
311-315), on two vectors of equal length. -/
def mismatchScan : List Int → List Int → Bool
  | a :: as, b :: bs => a != b || mismatchScan as bs
  | _, _ => false

/-- `unequal_content` (distances.cpp, lines 271-318). -/
def unequal_content (s1 s2 : GenomeSet) : Bool :=
  let gA := List.insertionSort (· ≤ ·) (collectGenes s1)
  let gB := List.insertionSort (· ≤ ·) (collectGenes s2)
  if gA.length ≠ gB.length then true else mismatchScan gA gB

/-- `_inversions` (distances.cpp, lines 175-218).  `duplicates(pi) ||
duplicates(id)` short-circuits in C, preserved by the nested match; `none`
propagates the undefined behaviour of `duplicates` on an empty collection.
The guard `num_pi == num_id == 1` of the source parses as
`(num_pi == num_id) == 1`, which is constant true (both counts are the
constant `1`), so the single-chromosome branch is always taken and the
DCJ/multichromosomal branch is dead code. -/
def _inversions (piS idS : GenomeSet) : Option Int :=
  match duplicates piS with
  | none => none
  | some true => some ERR_DUPLICATES
  | some false =>
    match duplicates idS with
    | none => none
    | some true => some ERR_DUPLICATES
    | some false =>
      if unequal_content piS idS then some ERR_CONTENT
      else
        if (chr0 piS).circular then
          some (invdist_circular (chr0 idS) (chr0 piS) + 1 -
            (if (chr0 idS).circular then 1 else 0))
        else if (chr0 idS).circular then
          some (invdist_circular (chr0 piS) (chr0 idS) + 1)
        else
          some (invdist_noncircular (chr0 piS) (chr0 idS) 0)

/-- The boundary comparison of `_breakpoints` / `_adjacencies`
(distances.cpp, line 120): `(pi1 == id1 && pi2 == id2) ||
(-pi1 == id2 && -pi2 == id1)`. -/
def boundaryHit (x y id1 id2 : Int) : Bool :=
  (x == id1 && y == id2) || (-x == id2 && -y == id1)

/-- The inner `l` loop of `_breakpoints` (distances.cpp, lines 115-123):
number of linear boundaries of `q` matching `(x, y)` (the `find` counter). -/
def boundaryMatches (x y : Int) (q : Genome) : Nat :=
  (List.range (q.pi.length - 1)).countP
    (fun l => boundaryHit x y (q.pi.getD l 0) (q.pi.getD (l + 1) 0))

/-- `_breakpoints` (distances.cpp, lines 86-173).  State is `(bA, bB, b)`.
Note the source resets `bB` to `0` inside the `k` loop and recounts it there,
so after the loop `bB` is `len(q) - 1` when `p` has at least one boundary and
`0` otherwise, and the extra `bB++` for the wrap boundary sits in the branch
guarded by `p.circular` (the comparison genome), not `q.circular`.  The dead
accumulator `bID` of the source is omitted. -/
def _breakpoints (piS idS : GenomeSet) : Int :=
  let p := chr0 piS
  let q := chr0 idS
  let st1 := (List.range (p.pi.length - 1)).foldl
    (fun (st : Nat × Nat × Nat) k =>
      let find := boundaryMatches (p.pi.getD k 0) (p.pi.getD (k + 1) 0) q
      (st.1 + 1, q.pi.length - 1, if find ≠ 0 then st.2.2 + 1 else st.2.2))
    (0, 0, 0)
  let st2 :=
    if p.circular then
      let x := p.pi.getD (p.pi.length - 1) 0
      let y := p.pi.getD 0 0
      let find := boundaryMatches x y q +
        (if q.circular then
          (if boundaryHit x y (q.pi.getD (q.pi.length - 1) 0) (q.pi.getD 0 0)
           then 1 else 0)
         else 0)
      (st1.1 + 1, st1.2.1 + 1, if find ≠ 0 then st1.2.2 + 1 else st1.2.2)
    else st1
  if st2.1 > st2.2.1 then (st2.1 : Int) - st2.2.2 else (st2.2.1 : Int) - st2.2.2


theorem adjDup_eq_false_iff (l : List Int) :
    adjDup l = false ↔ l.Chain' (· ≠ ·) := by
  induction l with
  | nil => simp [adjDup]
  | cons a t ih =>
    cases t with
    | nil => simp [adjDup]
    | cons b t2 =>
      rw [adjDup, List.chain'_cons, ← ih]
      constructor
      · intro h
        have := Bool.or_eq_false_iff.mp h
        refine ⟨?_, this.2⟩
        intro hab
        simp [hab] at this
      · intro h
        rcases h with ⟨hne, h2⟩
        rw [Bool.or_eq_false_iff]
        exact ⟨by simpa using hne, h2⟩

theorem chain'_lt_of_le_ne (l : List Int) (hle : l.Chain' (· ≤ ·))
    (hne : l.Chain' (· ≠ ·)) : l.Chain' (· < ·) := by
  induction l with
  | nil => exact List.chain'_nil
  | cons a t ih =>
    cases t with
    | nil => simp
    | cons b t2 =>
      rw [List.chain'_cons] at hle hne ⊢
      exact ⟨lt_of_le_of_ne hle.1 hne.1, ih hle.2 hne.2⟩

theorem nodup_of_adjDup_false (l : List Int) (hs : l.Sorted (· ≤ ·))
    (h : adjDup l = false) : l.Nodup := by
  have hc : l.Chain' (· < ·) :=
    chain'_lt_of_le_ne l hs.chain' ((adjDup_eq_false_iff l).mp h)
  have hp : l.Pairwise (· < ·) := List.chain'_iff_pairwise.mp hc
  exact hp.imp ne_of_lt

theorem not_nodup_of_adjDup_true (l : List Int) (h : adjDup l = true) :
    ¬ l.Nodup := by
  induction l with
  | nil => simp [adjDup] at h
  | cons a t ih =>
    cases t with
    | nil => simp [adjDup] at h
    | cons b t2 =>
      rw [adjDup, Bool.or_eq_true] at h
      intro hn
      rcases h with h | h
      · have hab : a = b := by simpa using h
        exact (List.nodup_cons.mp hn).1 (hab ▸ List.mem_cons_self b t2)
      · exact ih h (List.nodup_cons.mp hn).2

theorem adjDup_sorted_iff (l : List Int) (hs : l.Sorted (· ≤ ·)) :
    adjDup l = true ↔ ¬ l.Nodup := by
  constructor
  · exact not_nodup_of_adjDup_true l
  · intro h
    by_contra hb
    exact h (nodup_of_adjDup_false l hs (Bool.not_eq_true _ ▸ Bool.of_not_eq_true hb))

theorem duplicates_char (s : GenomeSet) (h : (chr0 s).pi ≠ []) :
    duplicates s = some (adjDup (List.insertionSort (· ≤ ·) (collectGenes s))) := by
  have hne : (collectGenes s).isEmpty = false := by
    rcases hx : (chr0 s).pi with _ | ⟨a, t⟩
    · exact absurd hx h
    · simp [collectGenes, hx]
  simp [duplicates, hne]

theorem duplicates_some_iff (s : GenomeSet) (h : (chr0 s).pi ≠ []) :
    ∃ b, duplicates s = some b ∧ (b = true ↔ ¬ (collectGenes s).Nodup) := by
  refine ⟨_, duplicates_char s h, ?_⟩
  rw [adjDup_sorted_iff _ (List.sorted_insertionSort _ _)]
  exact not_congr (List.perm_insertionSort (· ≤ ·) (collectGenes s)).nodup_iff

theorem duplicates_false_of_nodup (s : GenomeSet) (h : (chr0 s).pi ≠ [])
    (hn : (collectGenes s).Nodup) : duplicates s = some false := by
  rcases duplicates_some_iff s h with ⟨b, hb, hiff⟩
  cases b with
  | false => exact hb
  | true => exact absurd (hiff.mp rfl) (not_not_intro hn)


/-- C10: the duplicate-gene check is total only on a nonempty gene
collection: when the collected gene list (chromosome 0, the only chromosome
the constant chromosome count lets the source read) is nonempty, the unsigned
bound `genes.size()-1` does not underflow, every index of the scan is in
bounds (no `none`), and the result is `true` iff some absolute gene id occurs
at least twice. -/
theorem c10_duplicates_total_iff_dup (s : GenomeSet) (h : (chr0 s).pi ≠ []) :
    ∃ b, duplicates s = some b ∧ (b = true ↔ ¬ (collectGenes s).Nodup) :=
  duplicates_some_iff s h

/-- Witness for C10 at the spec's own duplicate example `[1,2,2,3]`. -/
theorem c10_witness :
    (chr0 [⟨[1, 2, 2, 3], false⟩]).pi ≠ [] ∧
      ∃ b, duplicates [⟨[1, 2, 2, 3], false⟩] = some b ∧
        (b = true ↔ ¬ (collectGenes [⟨[1, 2, 2, 3], false⟩]).Nodup) :=
  ⟨by decide, c10_duplicates_total_iff_dup [⟨[1, 2, 2, 3], false⟩] (by decide)⟩

/-- C4, evaluation at the failing input: the set `[[1], [2,2]]` contains the
absolute gene id `2` twice (in its second chromosome), yet `_inversions`
returns the distance `0` instead of `ERR_DUPLICATES`, because the source
computes the number of chromosomes as `sizeof(pi)/sizeof(Genome *) == 1` and
never looks at the second chromosome. -/
theorem c4_eval_failing_input :
    _inversions [⟨[1], false⟩, ⟨[2, 2], false⟩] [⟨[1], false⟩, ⟨[2, 2], false⟩] =
      some 0 := by decide

/-- C6, evaluation at the failing input: for `A = [1,2]` linear and
`B = [1,2]` circular the claimed count is `max(1,2) - 1 = 1` (B has a wrap
boundary), but the code returns `0`: its `bB` accumulator counts B's wrap
boundary only when `A` is circular. -/
theorem c6_eval_failing_input :
    _breakpoints [⟨[1, 2], false⟩] [⟨[1, 2], true⟩] = 0 := by decide

/-- C8, counterexample: on duplicate input `_inversions` returns the sentinel
negative integer `ERR_DUPLICATES = -2` rather than a tagged error value, so
the claim that a sentinel negative integer is never used is false. -/
theorem c8_counterexample :
    _inversions [⟨[1, 1], false⟩] [⟨[1, 1], false⟩] = some ERR_DUPLICATES ∧
      ERR_DUPLICATES < 0 := by
  constructor
  · decide
  · decide


theorem mismatchScan_false_eq (l1 l2 : List Int) (hl : l1.length = l2.length)
    (h : mismatchScan l1 l2 = false) : l1 = l2 := by
  induction l1 generalizing l2 with
  | nil =>
    cases l2 with
    | nil => rfl
    | cons b bs => simp at hl
  | cons a as ih =>
    cases l2 with
    | nil => simp at hl
    | cons b bs =>
      rw [mismatchScan, Bool.or_eq_false_iff] at h
      have hab : a = b := by simpa using h.1
      have : as = bs := ih bs (by simpa using hl) h.2
      rw [hab, this]

theorem sorted_eq_of_content (s1 s2 : GenomeSet)
    (h : unequal_content s1 s2 = false) :
    List.insertionSort (· ≤ ·) (collectGenes s1) =
      List.insertionSort (· ≤ ·) (collectGenes s2) := by
  unfold unequal_content at h
  by_cases hlen : (List.insertionSort (· ≤ ·) (collectGenes s1)).length =
      (List.insertionSort (· ≤ ·) (collectGenes s2)).length
  · rw [if_neg (by simpa using hlen)] at h
    exact mismatchScan_false_eq _ _ hlen h
  · rw [if_pos (by simpa using hlen)] at h
    exact absurd h (by simp)

theorem mem_collect_of_content (s1 s2 : GenomeSet) (x : Int)
    (h : unequal_content s1 s2 = false) (hx : x ∈ collectGenes s1) :
    x ∈ collectGenes s2 := by
  have h1 : x ∈ List.insertionSort (· ≤ ·) (collectGenes s1) :=
    (List.perm_insertionSort (· ≤ ·) (collectGenes s1)).mem_iff.mpr hx
  rw [sorted_eq_of_content s1 s2 h] at h1
  exact (List.perm_insertionSort (· ≤ ·) (collectGenes s2)).mem_iff.mp h1

theorem offsetScan_nonneg (gA : Int) (n : Nat) (l : List Int)
    (hx : ∃ x ∈ l, x = gA ∨ x = -gA) :
    ∀ i : Nat, 0 ≤ offsetScan gA n l i := by
  induction l with
  | nil => rcases hx with ⟨x, hmem, _⟩; exact absurd hmem (List.not_mem_nil x)
  | cons y rest ih =>
    intro i
    rw [offsetScan]
    by_cases h1 : y = gA
    · rw [if_pos h1]; positivity
    · rw [if_neg h1]
      by_cases h2 : y = -gA
      · rw [if_pos h2]; positivity
      · rw [if_neg h2]
        rcases hx with ⟨x, hmem, hor⟩
        rcases List.mem_cons.mp hmem with heq | hrest
        · subst heq; exact absurd hor (by tauto)
        · exact ih ⟨x, hrest, hor⟩ (i + 1)

/-- C9: after content validation the failure branch of `calculate_offset` is
unreachable — the scan of chromosome B always finds the first gene of
chromosome A or its negation, so the offset fed to the circular path is
nonnegative and in particular never the error value `ERR_CONTENT`. -/
theorem c9_offset_total (A B : Genome) (hA : A.pi ≠ [])
    (hc : unequal_content [A] [B] = false) :
    calculate_offset A B ≠ ERR_CONTENT ∧ 0 ≤ calculate_offset A B := by
  rcases hp : A.pi with _ | ⟨a, t⟩
  · exact absurd hp hA
  · have hga : A.pi.getD 0 0 = a := by rw [hp]; rfl
    have hmem1 : |a| ∈ collectGenes [A] := by
      simp [collectGenes, chr0, hp]
    have hmem2 : |a| ∈ collectGenes [B] := mem_collect_of_content _ _ _ hc hmem1
    have hex : ∃ x ∈ B.pi, x = a ∨ x = -a := by
      rcases List.mem_map.mp hmem2 with ⟨x, hxB, hxa⟩
      exact ⟨x, by simpa [chr0] using hxB, abs_eq_abs.mp hxa⟩
    have hpos : 0 ≤ calculate_offset A B := by
      rw [calculate_offset, hga]
      exact offsetScan_nonneg a B.pi.length B.pi hex 0
    refine ⟨?_, hpos⟩
    intro hbad
    rw [hbad] at hpos
    exact absurd hpos (by decide)

/-- Witness for C9: circular rotation example `A = [2,3,1]`, `B = [1,2,3]`. -/
theorem c9_witness :
    (⟨[2, 3, 1], true⟩ : Genome).pi ≠ [] ∧
      unequal_content [⟨[2, 3, 1], true⟩] [⟨[1, 2, 3], true⟩] = false ∧
      (calculate_offset ⟨[2, 3, 1], true⟩ ⟨[1, 2, 3], true⟩ ≠ ERR_CONTENT ∧
        0 ≤ calculate_offset ⟨[2, 3, 1], true⟩ ⟨[1, 2, 3], true⟩) :=
  ⟨by decide, by decide,
    c9_offset_total ⟨[2, 3, 1], true⟩ ⟨[1, 2, 3], true⟩ (by decide) (by decide)⟩


theorem chr0_single (g : Genome) : chr0 [g] = g := rfl

theorem inversions_valid (piS idS : GenomeSet)
    (hd1 : duplicates piS = some false) (hd2 : duplicates idS = some false)
    (hc : unequal_content piS idS = false) :
    _inversions piS idS =
      some (if (chr0 piS).circular then
          invdist_circular (chr0 idS) (chr0 piS) + 1 -
            (if (chr0 idS).circular then 1 else 0)
        else if (chr0 idS).circular then
          invdist_circular (chr0 piS) (chr0 idS) + 1
        else invdist_noncircular (chr0 piS) (chr0 idS) 0) := by
  rw [_inversions, hd1, hd2]
  by_cases h1 : (chr0 piS).circular <;> by_cases h2 : (chr0 idS).circular <;>
    simp [hc, h1, h2]

/-- The right-hand side of the claimed formula for the linear case: breakpoint
count minus cycle count plus hurdles plus fortress, all on the extended
permutation built from A and B with offset 0. -/
def specLinearDistance (A B : Genome) : Int :=
  (num_breakpoints (buildPerm A B 0) (2 * A.pi.length + 2) : Int) -
    (num_cycles (buildPerm A B 0) (2 * A.pi.length + 2) : Int) +
    ((num_hurdles_and_fortress (mkGreyEdges (buildPerm A B 0) (2 * A.pi.length + 2))
        (cycleLabels (buildPerm A B 0) (2 * A.pi.length + 2))
        (2 * A.pi.length + 2)).1 : Int) +
    ((num_hurdles_and_fortress (mkGreyEdges (buildPerm A B 0) (2 * A.pi.length + 2))
        (cycleLabels (buildPerm A B 0) (2 * A.pi.length + 2))
        (2 * A.pi.length + 2)).2 : Int)

/-- C1: for valid linear single-chromosome genomes with matching content the
returned inversion distance is `numBreakpoints(perm) - numCycles(perm) +
numHurdles + numFortress` on the extended permutation of length `2n+2` built
with offset `0`, whose entries `0` and `2n+1` are the fixed caps. -/
theorem c1_linear_distance_formula (A B : Genome)
    (hA : A.pi ≠ []) (hB : B.pi ≠ [])
    (hndA : (collectGenes [A]).Nodup) (hndB : (collectGenes [B]).Nodup)
    (hcont : unequal_content [A] [B] = false)
    (hlinA : A.circular = false) (hlinB : B.circular = false) :
    _inversions [A] [B] = some (specLinearDistance A B) ∧
      buildPerm A B 0 0 = 0 ∧
      buildPerm A B 0 (2 * A.pi.length + 1) = ((2 * A.pi.length + 1 : Nat) : Int) := by
  have hd1 : duplicates [A] = some false :=
    duplicates_false_of_nodup [A] (by simpa [chr0] using hA) hndA
  have hd2 : duplicates [B] = some false :=
    duplicates_false_of_nodup [B] (by simpa [chr0] using hB) hndB
  have hv := inversions_valid [A] [B] hd1 hd2 hcont
  simp only [chr0_single] at hv
  simp only [hlinA, hlinB, Bool.false_eq_true, if_false] at hv
  refine ⟨?_, ?_, ?_⟩
  · rw [hv]; rfl
  · simp [buildPerm]
  · have hne : 2 * A.pi.length + 1 ≠ 0 := by omega
    have hcap : 2 * A.pi.length + 1 = 2 * A.pi.length + 2 - 1 := by omega
    simp only [buildPerm, if_neg hne]
    rw [if_pos hcap]
    push_cast
    ring

/-- Witness for C1 at the spec's one-reversal example. -/
theorem c1_witness :
    (⟨[1, 2, 3, 4, 5], false⟩ : Genome).pi ≠ [] ∧
      (⟨[1, -4, -3, -2, 5], false⟩ : Genome).pi ≠ [] ∧
      (collectGenes [⟨[1, 2, 3, 4, 5], false⟩]).Nodup ∧
      (collectGenes [⟨[1, -4, -3, -2, 5], false⟩]).Nodup ∧
      unequal_content [⟨[1, 2, 3, 4, 5], false⟩] [⟨[1, -4, -3, -2, 5], false⟩] = false ∧
      (_inversions [⟨[1, 2, 3, 4, 5], false⟩] [⟨[1, -4, -3, -2, 5], false⟩] =
          some (specLinearDistance ⟨[1, 2, 3, 4, 5], false⟩ ⟨[1, -4, -3, -2, 5], false⟩) ∧
        buildPerm ⟨[1, 2, 3, 4, 5], false⟩ ⟨[1, -4, -3, -2, 5], false⟩ 0 0 = 0 ∧
        buildPerm ⟨[1, 2, 3, 4, 5], false⟩ ⟨[1, -4, -3, -2, 5], false⟩ 0 11 = 11) :=
  ⟨by decide, by decide, by decide, by decide, by decide,
    c1_linear_distance_formula ⟨[1, 2, 3, 4, 5], false⟩ ⟨[1, -4, -3, -2, 5], false⟩
      (by decide) (by decide) (by decide) (by decide) (by decide) rfl rfl⟩

/-- C5: when at least one of two valid single-chromosome genomes is circular,
the returned distance is the linear-formula distance on the alignment given by
`calculate_offset`, plus 1 when exactly one side is circular and plus 0 when
both are (the source swaps the argument order when the first genome is the
circular one). -/
theorem c5_circular_correction (A B : Genome)
    (hA : A.pi ≠ []) (hB : B.pi ≠ [])
    (hndA : (collectGenes [A]).Nodup) (hndB : (collectGenes [B]).Nodup)
    (hcont : unequal_content [A] [B] = false)
    (hcirc : A.circular = true ∨ B.circular = true) :
    _inversions [A] [B] =
      some (if A.circular then
          invdist_noncircular B A (calculate_offset B A) + 1 -
            (if B.circular then 1 else 0)
        else invdist_noncircular A B (calculate_offset A B) + 1) := by
  have hd1 : duplicates [A] = some false :=
    duplicates_false_of_nodup [A] (by simpa [chr0] using hA) hndA
  have hd2 : duplicates [B] = some false :=
    duplicates_false_of_nodup [B] (by simpa [chr0] using hB) hndB
  have hv := inversions_valid [A] [B] hd1 hd2 hcont
  simp only [chr0_single] at hv
  by_cases h1 : A.circular
  · rw [hv]
    simp [h1, invdist_circular]
  · rcases hcirc with hca | hcb
    · exact absurd hca h1
    · rw [hv]
      simp [h1, hcb, invdist_circular]

/-- Witness for C5 at the spec's circular example (distance 1 plus the
linear-vs-circular correction). -/
theorem c5_witness :
    (⟨[1, 2, 3], false⟩ : Genome).pi ≠ [] ∧
      (⟨[1, -3, -2], true⟩ : Genome).pi ≠ [] ∧
      (collectGenes [⟨[1, 2, 3], false⟩]).Nodup ∧
      (collectGenes [⟨[1, -3, -2], true⟩]).Nodup ∧
      unequal_content [⟨[1, 2, 3], false⟩] [⟨[1, -3, -2], true⟩] = false ∧
      ((⟨[1, 2, 3], false⟩ : Genome).circular = true ∨
        (⟨[1, -3, -2], true⟩ : Genome).circular = true) ∧
      _inversions [⟨[1, 2, 3], false⟩] [⟨[1, -3, -2], true⟩] =
        some (if (⟨[1, 2, 3], false⟩ : Genome).circular then
            invdist_noncircular ⟨[1, -3, -2], true⟩ ⟨[1, 2, 3], false⟩
              (calculate_offset ⟨[1, -3, -2], true⟩ ⟨[1, 2, 3], false⟩) + 1 -
              (if (⟨[1, -3, -2], true⟩ : Genome).circular then 1 else 0)
          else invdist_noncircular ⟨[1, 2, 3], false⟩ ⟨[1, -3, -2], true⟩
            (calculate_offset ⟨[1, 2, 3], false⟩ ⟨[1, -3, -2], true⟩) + 1) :=
  ⟨by decide, by decide, by decide, by decide, by decide, Or.inr rfl,
    c5_circular_correction ⟨[1, 2, 3], false⟩ ⟨[1, -3, -2], true⟩
      (by decide) (by decide) (by decide) (by decide) (by decide) (Or.inr rfl)⟩

/-- C8 as amended: a call yields exactly one value; validation failures are
reported as the sentinel negative integers `ERR_DUPLICATES = -2` and
`ERR_CONTENT = -1` (not as a tagged result), and otherwise the value is the
dispatched distance. -/
theorem c8_amended_sentinels (piS idS : GenomeSet)
    (h1 : (chr0 piS).pi ≠ []) (h2 : (chr0 idS).pi ≠ []) :
    ∃ r : Int, _inversions piS idS = some r ∧
      (¬ (collectGenes piS).Nodup ∨ ¬ (collectGenes idS).Nodup →
        r = ERR_DUPLICATES) ∧
      ((collectGenes piS).Nodup → (collectGenes idS).Nodup →
        unequal_content piS idS = true → r = ERR_CONTENT) ∧
      ((collectGenes piS).Nodup → (collectGenes idS).Nodup →
        unequal_content piS idS = false →
        r = (if (chr0 piS).circular then
            invdist_circular (chr0 idS) (chr0 piS) + 1 -
              (if (chr0 idS).circular then 1 else 0)
          else if (chr0 idS).circular then
            invdist_circular (chr0 piS) (chr0 idS) + 1
          else invdist_noncircular (chr0 piS) (chr0 idS) 0)) := by
  rcases duplicates_some_iff piS h1 with ⟨b1, hb1, hiff1⟩
  rcases duplicates_some_iff idS h2 with ⟨b2, hb2, hiff2⟩
  cases b1 with
  | true =>
    refine ⟨ERR_DUPLICATES, ?_, fun _ => rfl, ?_, ?_⟩
    · rw [_inversions, hb1]
    · intro hn _ _; exact absurd hn (hiff1.mp rfl)
    · intro hn _ _; exact absurd hn (hiff1.mp rfl)
  | false =>
    have hn1 : (collectGenes piS).Nodup := by
      by_contra hx
      exact Bool.false_ne_true (hiff1.mpr hx)
    cases b2 with
    | true =>
      refine ⟨ERR_DUPLICATES, ?_, fun _ => rfl, ?_, ?_⟩
      · rw [_inversions, hb1, hb2]
      · intro _ hn _; exact absurd hn (hiff2.mp rfl)
      · intro _ hn _; exact absurd hn (hiff2.mp rfl)
    | false =>
      have hn2 : (collectGenes idS).Nodup := by
        by_contra hx
        exact Bool.false_ne_true (hiff2.mpr hx)
      by_cases hc : unequal_content piS idS = true
      · refine ⟨ERR_CONTENT, ?_, ?_, fun _ _ _ => rfl, ?_⟩
        · rw [_inversions, hb1, hb2, if_pos hc]
        · intro hn; exact absurd hn (by tauto)
        · intro _ _ hc2; rw [hc] at hc2; exact absurd hc2 (by simp)
      · have hcf : unequal_content piS idS = false := by
          simpa using hc
        refine ⟨_, inversions_valid piS idS hb1 hb2 hcf, ?_, ?_, fun _ _ _ => rfl⟩
        · intro hn; exact absurd hn (by tauto)
        · intro _ _ hc2; rw [hcf] at hc2; exact absurd hc2 (by simp)

/-- Witness for C8's amended statement on a validated input pair. -/
theorem c8_witness :
    (chr0 [⟨[1, 2], false⟩]).pi ≠ [] ∧ (chr0 [⟨[2, 1], false⟩]).pi ≠ [] ∧
      (∃ r : Int, _inversions [⟨[1, 2], false⟩] [⟨[2, 1], false⟩] = some r ∧
        (¬ (collectGenes [⟨[1, 2], false⟩]).Nodup ∨
            ¬ (collectGenes [⟨[2, 1], false⟩]).Nodup → r = ERR_DUPLICATES) ∧
        ((collectGenes [⟨[1, 2], false⟩]).Nodup →
          (collectGenes [⟨[2, 1], false⟩]).Nodup →
          unequal_content [⟨[1, 2], false⟩] [⟨[2, 1], false⟩] = true →
          r = ERR_CONTENT) ∧
        ((collectGenes [⟨[1, 2], false⟩]).Nodup →
          (collectGenes [⟨[2, 1], false⟩]).Nodup →
          unequal_content [⟨[1, 2], false⟩] [⟨[2, 1], false⟩] = false →
          r = (if (chr0 [⟨[1, 2], false⟩]).circular then
              invdist_circular (chr0 [⟨[2, 1], false⟩]) (chr0 [⟨[1, 2], false⟩]) + 1 -
                (if (chr0 [⟨[2, 1], false⟩]).circular then 1 else 0)
            else if (chr0 [⟨[2, 1], false⟩]).circular then
              invdist_circular (chr0 [⟨[1, 2], false⟩]) (chr0 [⟨[2, 1], false⟩]) + 1
            else invdist_noncircular (chr0 [⟨[1, 2], false⟩])
              (chr0 [⟨[2, 1], false⟩]) 0))) :=
  ⟨by decide, by decide,
    c8_amended_sentinels [⟨[1, 2], false⟩] [⟨[2, 1], false⟩] (by decide) (by decide)⟩


theorem foldl_fixed {α β : Type} (f : β → α → β) (l : List α) (a : β)
    (h : ∀ b : β, ∀ x ∈ l, f b x = b) : l.foldl f a = a := by
  induction l generalizing a with
  | nil => rfl
  | cons x xs ih =>
    rw [List.foldl_cons, h a x (List.mem_cons_self x xs)]
    exact ih a (fun b y hy => h b y (List.mem_cons_of_mem x hy))

theorem p2step_preserve (g2 : Genome) (num : Nat) (off : Int) (q : Nat → Int)
    (m j : Nat) (h1 : j ≠ 2 * m + 1) (h2 : j ≠ 2 * m + 2) :
    p2step g2 num off q m j = q j := by
  simp only [p2step]
  split <;> split <;>
    rw [Function.update_noteq (by omega : j ≠ 2 * m + 1 + 1),
      Function.update_noteq h1]

theorem p2step_zero_eval (g2 : Genome) (num m : Nat) (hm : m < num)
    (q : Nat → Int) :
    p2step g2 num 0 q m (2 * m + 1) =
      (if 0 < g2.pi.getD m 0 then 2 * g2.pi.getD m 0 - 1
        else -(2 * g2.pi.getD m 0)) ∧
    p2step g2 num 0 q m (2 * m + 2) =
      (if 0 < g2.pi.getD m 0 then 2 * g2.pi.getD m 0
        else -(2 * g2.pi.getD m 0) - 1) := by
  have h0 : (0 : Int) < (num : Int) := by exact_mod_cast Nat.pos_of_ne_zero (by omega)
  have hidx : (((0 : Int) + (m : Int)).tmod (num : Nat)).toNat = m := by
    rw [zero_add]
    rw [Int.tmod_eq_emod (by positivity) (by positivity)]
    rw [Int.emod_eq_of_lt (by positivity) (by exact_mod_cast hm)]
    exact Int.toNat_natCast m
  simp only [p2step, if_pos h0, hidx]
  by_cases hg : 0 < g2.pi.getD m 0
  · simp only [if_pos hg]
    constructor
    · rw [Function.update_noteq (by omega : 2 * m + 1 ≠ 2 * m + 1 + 1),
        Function.update_same]
    · rw [show 2 * m + 2 = 2 * m + 1 + 1 by omega, Function.update_same]
  · simp only [if_neg hg]
    constructor
    · rw [Function.update_noteq (by omega : 2 * m + 1 ≠ 2 * m + 1 + 1),
        Function.update_same]
      ring
    · rw [show 2 * m + 2 = 2 * m + 1 + 1 by omega, Function.update_same]
      ring

theorem buildPerm2_zero_at (g2 : Genome) (num : Nat) :
    ∀ m, m ≤ num → ∀ i, i < m →
      ((List.range m).foldl (p2step g2 num 0) (fun _ => 0)) (2 * i + 1) =
        (if 0 < g2.pi.getD i 0 then 2 * g2.pi.getD i 0 - 1
          else -(2 * g2.pi.getD i 0)) ∧
      ((List.range m).foldl (p2step g2 num 0) (fun _ => 0)) (2 * i + 2) =
        (if 0 < g2.pi.getD i 0 then 2 * g2.pi.getD i 0
          else -(2 * g2.pi.getD i 0) - 1) := by
  intro m
  induction m with
  | zero => intro _ i hi; omega
  | succ m ih =>
    intro hm i hi
    rw [List.range_succ, List.foldl_append, List.foldl_cons, List.foldl_nil]
    by_cases him : i = m
    · subst him
      exact p2step_zero_eval g2 num i (by omega) _
    · have hp := ih (by omega) i (by omega)
      constructor
      · rw [p2step_preserve g2 num 0 _ m _ (by omega) (by omega)]
        exact hp.1
      · rw [p2step_preserve g2 num 0 _ m _ (by omega) (by omega)]
        exact hp.2

theorem p1step_preserve (g1 : Genome) (q : Int → Nat) (m : Nat) (j : Int)
    (h1 : j ≠ 2 * g1.pi.getD m 0 - 1) (h2 : j ≠ 2 * g1.pi.getD m 0)
    (h3 : j ≠ -(2 * g1.pi.getD m 0)) (h4 : j ≠ -(2 * g1.pi.getD m 0) - 1) :
    p1step g1 q m j = q j := by
  simp only [p1step]
  split
  · rw [Function.update_noteq h2, Function.update_noteq h1]
  · rw [Function.update_noteq (by omega : j ≠ -(2 * g1.pi.getD m 0) - 1),
      Function.update_noteq (by omega : j ≠ -(2 * g1.pi.getD m 0))]

theorem p1step_eval (g1 : Genome) (q : Int → Nat) (m : Nat) :
    p1step g1 q m
        (if 0 < g1.pi.getD m 0 then 2 * g1.pi.getD m 0 - 1
          else -(2 * g1.pi.getD m 0)) = 2 * m + 1 ∧
    p1step g1 q m
        (if 0 < g1.pi.getD m 0 then 2 * g1.pi.getD m 0
          else -(2 * g1.pi.getD m 0) - 1) = 2 * m + 2 := by
  simp only [p1step]
  by_cases hx : 0 < g1.pi.getD m 0
  · simp only [if_pos hx, if_pos (show 2 * g1.pi.getD m 0 > 0 by omega)]
    constructor
    · rw [Function.update_noteq (by omega : 2 * g1.pi.getD m 0 - 1 ≠
          2 * g1.pi.getD m 0), Function.update_same]
    · rw [Function.update_same]
  · simp only [if_neg hx, if_neg (show ¬ 2 * g1.pi.getD m 0 > 0 by omega)]
    constructor
    · rw [Function.update_noteq (by omega : -(2 * g1.pi.getD m 0) ≠
          -(2 * g1.pi.getD m 0) - 1), Function.update_same]
    · rw [Function.update_same]

theorem abs_getD_ne (L : List Int) (hnd : (L.map (fun v => |v|)).Nodup)
    (i m : Nat) (hi : i < L.length) (hm : m < L.length) (hne : i ≠ m) :
    L.getD i 0 ≠ L.getD m 0 ∧ L.getD i 0 ≠ -(L.getD m 0) := by
  have hilt : i < (L.map (fun v => |v|)).length := by simpa using hi
  have hmlt : m < (L.map (fun v => |v|)).length := by simpa using hm
  have habs : |L.getD i 0| ≠ |L.getD m 0| := by
    intro he
    have hgi : (L.map (fun v => |v|)).get ⟨i, hilt⟩ = |L.getD i 0| := by
      rw [List.get_eq_getElem, List.getElem_map, List.getD_eq_getElem L 0 hi]
    have hgm : (L.map (fun v => |v|)).get ⟨m, hmlt⟩ = |L.getD m 0| := by
      rw [List.get_eq_getElem, List.getElem_map, List.getD_eq_getElem L 0 hm]
    have hf : (⟨i, hilt⟩ : Fin _) = ⟨m, hmlt⟩ :=
      hnd.get_inj_iff.mp (by rw [hgi, hgm, he])
    exact hne (by simpa using congrArg Fin.val hf)
  constructor
  · intro he; exact habs (by rw [he])
  · intro he; exact habs (by rw [he, abs_neg])

theorem buildPerm1_at (g1 : Genome) (hnd : (g1.pi.map (fun v => |v|)).Nodup) :
    ∀ m, m ≤ g1.pi.length → ∀ i, i < m →
      ((List.range m).foldl (p1step g1) (fun _ => 0))
          (if 0 < g1.pi.getD i 0 then 2 * g1.pi.getD i 0 - 1
            else -(2 * g1.pi.getD i 0)) = 2 * i + 1 ∧
      ((List.range m).foldl (p1step g1) (fun _ => 0))
          (if 0 < g1.pi.getD i 0 then 2 * g1.pi.getD i 0
            else -(2 * g1.pi.getD i 0) - 1) = 2 * i + 2 := by
  intro m
  induction m with
  | zero => intro _ i hi; omega
  | succ m ih =>
    intro hm i hi
    rw [List.range_succ, List.foldl_append, List.foldl_cons, List.foldl_nil]
    by_cases him : i = m
    · subst him
      exact p1step_eval g1 _ i
    · have hkey := abs_getD_ne g1.pi hnd i m (by omega) (by omega) him
      have hp := ih (by omega) i (by omega)
      constructor
      · rw [p1step_preserve g1 _ m _ (by by_cases h : 0 < g1.pi.getD i 0 <;>
            simp only [h, if_pos, if_neg, if_true, if_false] <;> omega)
          (by by_cases h : 0 < g1.pi.getD i 0 <;>
            simp only [h, if_pos, if_neg, if_true, if_false] <;> omega)
          (by by_cases h : 0 < g1.pi.getD i 0 <;>
            simp only [h, if_pos, if_neg, if_true, if_false] <;> omega)
          (by by_cases h : 0 < g1.pi.getD i 0 <;>
            simp only [h, if_pos, if_neg, if_true, if_false] <;> omega)]
        exact hp.1
      · rw [p1step_preserve g1 _ m _ (by by_cases h : 0 < g1.pi.getD i 0 <;>
            simp only [h, if_pos, if_neg, if_true, if_false] <;> omega)
          (by by_cases h : 0 < g1.pi.getD i 0 <;>
            simp only [h, if_pos, if_neg, if_true, if_false] <;> omega)
          (by by_cases h : 0 < g1.pi.getD i 0 <;>
            simp only [h, if_pos, if_neg, if_true, if_false] <;> omega)
          (by by_cases h : 0 < g1.pi.getD i 0 <;>
            simp only [h, if_pos, if_neg, if_true, if_false] <;> omega)]
        exact hp.2

theorem buildPerm_self_id (G : Genome)
    (hnd : (G.pi.map (fun v => |v|)).Nodup) :
    ∀ j, j < 2 * G.pi.length + 2 → buildPerm G G 0 j = (j : Int) := by
  intro j hj
  simp only [buildPerm]
  by_cases hj0 : j = 0
  · rw [if_pos hj0, hj0]; rfl
  · rw [if_neg hj0]
    by_cases hjn : j = 2 * G.pi.length + 2 - 1
    · rw [if_pos hjn, hjn]
      push_cast
      omega
    · rw [if_neg hjn]
      by_cases hpar : j % 2 = 1
      · have hij : j = 2 * (j / 2) + 1 := by omega
        have hilt : j / 2 < G.pi.length := by omega
        have h2 := (buildPerm2_zero_at G G.pi.length G.pi.length le_rfl
          (j / 2) hilt).1
        have h1 := (buildPerm1_at G hnd G.pi.length le_rfl (j / 2) hilt).1
        rw [hij]
        rw [show buildPerm2 G G.pi.length 0 (2 * (j / 2) + 1) =
            (if 0 < G.pi.getD (j / 2) 0 then 2 * G.pi.getD (j / 2) 0 - 1
              else -(2 * G.pi.getD (j / 2) 0)) from h2]
        rw [show buildPerm1 G
            (if 0 < G.pi.getD (j / 2) 0 then 2 * G.pi.getD (j / 2) 0 - 1
              else -(2 * G.pi.getD (j / 2) 0)) = 2 * (j / 2) + 1 from h1]
      · have hij : j = 2 * (j / 2 - 1) + 2 := by omega
        have hilt : j / 2 - 1 < G.pi.length := by omega
        have h2 := (buildPerm2_zero_at G G.pi.length G.pi.length le_rfl
          (j / 2 - 1) hilt).2
        have h1 := (buildPerm1_at G hnd G.pi.length le_rfl (j / 2 - 1) hilt).2
        rw [hij]
        rw [show buildPerm2 G G.pi.length 0 (2 * (j / 2 - 1) + 2) =
            (if 0 < G.pi.getD (j / 2 - 1) 0 then 2 * G.pi.getD (j / 2 - 1) 0
              else -(2 * G.pi.getD (j / 2 - 1) 0) - 1) from h2]
        rw [show buildPerm1 G
            (if 0 < G.pi.getD (j / 2 - 1) 0 then 2 * G.pi.getD (j / 2 - 1) 0
              else -(2 * G.pi.getD (j / 2 - 1) 0) - 1) = 2 * (j / 2 - 1) + 2
            from h1]


theorem num_breakpoints_id (perm : Nat → Int) (len : Nat)
    (hid : ∀ j, j < 2 * len + 2 → perm j = (j : Int)) :
    num_breakpoints perm (2 * len + 2) = 0 := by
  unfold num_breakpoints
  rw [if_neg (by simp [hid 1 (by omega)])]
  rw [List.countP_eq_zero.mpr]
  intro a ha
  rw [List.mem_range'] at ha
  obtain ⟨k, hk, hak⟩ := ha
  have hlt : a < 2 * len + 1 := by omega
  simp only [isBreakpoint, hid a (by omega), hid (a + 1) (by omega)]
  rw [if_neg (by
    intro hc
    have : a = 2 * len + 2 := by exact_mod_cast hc
    omega)]
  simp

theorem mkInvperm_id (perm : Nat → Int) (size : Nat)
    (hid : ∀ j, j < size → perm j = (j : Int)) :
    ∀ j, j < size → mkInvperm perm size ((j : Nat) : Int) = j := by
  suffices h : ∀ m, m ≤ size → ∀ j, j < m →
      (List.range m).foldl (fun inv i => Function.update inv (perm i) i)
        (fun _ => 0) ((j : Nat) : Int) = j by
    intro j hj
    exact h size le_rfl j hj
  intro m
  induction m with
  | zero => intro _ j hj; omega
  | succ m ih =>
    intro hm j hj
    rw [List.range_succ, List.foldl_append, List.foldl_cons, List.foldl_nil]
    by_cases hjm : j = m
    · subst hjm
      rw [hid j (by omega), Function.update_same]
    · rw [hid m (by omega),
        Function.update_noteq (by exact_mod_cast hjm)]
      exact ih (by omega) j (by omega)

theorem mkGreyEdges_id (perm : Nat → Int) (len : Nat)
    (hid : ∀ j, j < 2 * len + 2 → perm j = (j : Int)) :
    ∀ v, mkGreyEdges perm (2 * len + 2) v = -1 := by
  intro v
  have hinv : ∀ j, j < 2 * len + 2 →
      mkInvperm perm (2 * len + 2) ((j : Nat) : Int) = j :=
    mkInvperm_id perm (2 * len + 2) hid
  have h1 : mkInvperm perm (2 * len + 2) 1 = 1 := by
    have := hinv 1 (by omega)
    simpa using this
  have hstep : ∀ (ge : Nat → Int) i, i ∈ List.range' 1 ((2 * len + 2 - 2) / 2) 2 →
      geStep perm (mkInvperm perm (2 * len + 2)) ge i = ge := by
    intro ge i hi
    rw [List.mem_range'] at hi
    obtain ⟨k, hk, hik⟩ := hi
    have hklen : k < len := by omega
    have hi1 : i < 2 * len + 2 := by omega
    have hi2 : i + 1 < 2 * len + 2 := by omega
    have hio : ((i : Nat) : Int) < (((i + 1 : Nat)) : Int) := by
      exact_mod_cast Nat.lt_succ_self i
    have hj1 : mkInvperm perm (2 * len + 2) (((i : Nat) : Int) - 1) = i - 1 := by
      rw [show ((i : Nat) : Int) - 1 = (((i - 1 : Nat)) : Int) by omega]
      exact hinv (i - 1) (by omega)
    have hj2 : mkInvperm perm (2 * len + 2) (((i : Nat) : Int) + 2) = i + 2 := by
      rw [show ((i : Nat) : Int) + 2 = (((i + 2 : Nat)) : Int) by omega]
      exact hinv (i + 2) (by omega)
    simp only [geStep, hid i hi1, hid (i + 1) hi2, if_pos hio, hj1, hj2]
    simp
  have hlast : mkInvperm perm (2 * len + 2) (((2 * len + 2 : Nat) : Int) - 2) =
      2 * len + 2 - 2 := by
    rw [show ((2 * len + 2 : Nat) : Int) - 2 = (((2 * len + 2 - 2 : Nat)) : Int)
      by omega]
    exact hinv (2 * len + 2 - 2) (by omega)
  simp only [mkGreyEdges]
  rw [hlast, if_neg (by omega)]
  rw [foldl_fixed _ _ _ hstep]
  rw [if_neg (by simp [h1])]

theorem cyclePhase_no_edges (ge : Nat → Int) (size : Nat)
    (hge : ∀ i, ge i = -1) :
    cyclePhase ge size = (0, ⟨fun _ => false, fun _ => 0⟩) := by
  unfold cyclePhase
  apply foldl_fixed
  intro b x _
  exact if_neg (fun hc => hc.2 (hge x))

theorem connected_component_no_edges (ge : Nat → Int) (cyc : Nat → Nat)
    (size : Nat) (hge : ∀ i, ge i = -1) :
    (connected_component ge cyc size).1 = [] := by
  unfold connected_component
  dsimp only
  rw [foldl_fixed (ccStep ge _) _ _ (by
    intro b x _
    unfold ccStep
    rw [if_pos (hge x)])]

theorem nhf_no_edges (ge : Nat → Int) (cyc : Nat → Nat) (size : Nat)
    (hge : ∀ i, ge i = -1) :
    num_hurdles_and_fortress ge cyc size = (0, 0) := by
  unfold num_hurdles_and_fortress
  dsimp only
  rw [connected_component_no_edges ge cyc size hge]
  simp

theorem invdist_self_zero (G : Genome)
    (hnd : (G.pi.map (fun v => |v|)).Nodup) :
    invdist_noncircular G G 0 = 0 := by
  have hid : ∀ j, j < 2 * G.pi.length + 2 → buildPerm G G 0 j = (j : Int) :=
    buildPerm_self_id G hnd
  have hge : ∀ v, mkGreyEdges (buildPerm G G 0) (2 * G.pi.length + 2) v = -1 :=
    mkGreyEdges_id (buildPerm G G 0) G.pi.length hid
  unfold invdist_noncircular
  dsimp only
  rw [num_breakpoints_id (buildPerm G G 0) G.pi.length hid]
  have hc : num_cycles (buildPerm G G 0) (2 * G.pi.length + 2) = 0 := by
    unfold num_cycles
    rw [cyclePhase_no_edges _ _ hge]
  rw [hc, nhf_no_edges _ _ _ hge]
  simp

theorem mismatchScan_self : ∀ l : List Int, mismatchScan l l = false := by
  intro l
  induction l with
  | nil => rfl
  | cons a t ih => simp [mismatchScan, ih]

theorem unequal_content_self (s : GenomeSet) : unequal_content s s = false := by
  unfold unequal_content
  rw [if_neg (by simp)]
  exact mismatchScan_self _

/-- C7: `inversionDistance(G, G) = 0` for every valid (nonempty, duplicate
free) single-chromosome genome `G`, linear or circular. -/
theorem c7_self_distance_zero (G : Genome) (h0 : G.pi ≠ [])
    (hnd : (collectGenes [G]).Nodup) :
    _inversions [G] [G] = some 0 := by
  have hnd' : (G.pi.map (fun v => |v|)).Nodup := hnd
  have hd : duplicates [G] = some false :=
    duplicates_false_of_nodup [G] (by simpa [chr0] using h0) hnd
  have hv := inversions_valid [G] [G] hd hd (unequal_content_self [G])
  simp only [chr0_single] at hv
  by_cases hcir : G.circular
  · rw [hv, if_pos hcir, if_pos hcir]
    have hoff : calculate_offset G G = 0 := by
      rcases hp : G.pi with _ | ⟨a, t⟩
      · exact absurd hp h0
      · unfold calculate_offset
        rw [hp]
        simp [offsetScan]
    rw [invdist_circular, hoff, invdist_self_zero G hnd']
    norm_num
  · have hcf : G.circular = false := by simpa using hcir
    rw [hv]
    simp only [hcf, Bool.false_eq_true, if_false]
    rw [invdist_self_zero G hnd']

/-- Witness for C7 on a circular genome with sparse signed ids. -/
theorem c7_witness :
    (⟨[2, -5, 3], true⟩ : Genome).pi ≠ [] ∧
      (collectGenes [⟨[2, -5, 3], true⟩]).Nodup ∧
      _inversions [⟨[2, -5, 3], true⟩] [⟨[2, -5, 3], true⟩] = some 0 :=
  ⟨by decide, by decide,
    c7_self_distance_zero ⟨[2, -5, 3], true⟩ (by decide) (by decide)⟩


theorem updComp_getD_ne (cs : List component_t) (k : Nat)
    (f : component_t → component_t) (j : Nat) (h : j ≠ k) :
    (updComp cs k f).getD j default = cs.getD j default := by
  unfold updComp
  simp [List.getD, List.getElem?_set_ne (Ne.symm h)]

theorem updComp_getD_self (cs : List component_t) (k : Nat)
    (f : component_t → component_t) (h : k < cs.length) :
    (updComp cs k f).getD k default = f (cs.getD k default) := by
  unfold updComp
  simp [List.getD, List.getElem?_set_self, h]

theorem or_super_and_great (h : Nat) :
    (h ||| SUPERHURDLE) &&& GREATHURDLE = h &&& GREATHURDLE := by
  unfold SUPERHURDLE GREATHURDLE
  rw [Nat.and_distrib_right, show (4 &&& 2 : Nat) = 0 by decide, Nat.or_zero]

theorem superLoop_end (nh : Nat) (cs' : List component_t) (i ns : Nat)
    (h : ¬ i < cs'.length) :
    superLoop nh cs' i ns = if nh = ns ∧ ns % 2 = 1 then (nh, 1) else (nh, 0) := by
  rw [superLoop, dif_neg h]

theorem countHurdlesFrom_end (cs : List component_t) (i : Nat)
    (h : ¬ i < cs.length) : countHurdlesFrom cs i = 0 := by
  rw [countHurdlesFrom, if_neg h]

theorem countHurdlesFrom_step (cs : List component_t) (i : Nat)
    (h : i < cs.length) :
    countHurdlesFrom cs i =
      (if (cs.getD i default).hurdle ≠ 0 then 1 else 0) +
        countHurdlesFrom cs (i + 1) := by
  rw [countHurdlesFrom, if_pos h]

theorem superLoop_char (cs : List component_t) (nh : Nat) :
    ∀ d i ns cs',
      cs.length - i ≤ d →
      cs'.length = cs.length →
      (∀ k, (cs'.getD k default).blocks = (cs.getD k default).blocks ∧
        (cs'.getD k default).left = (cs.getD k default).left ∧
        (cs'.getD k default).right = (cs.getD k default).right ∧
        (cs'.getD k default).hurdle &&& GREATHURDLE =
          (cs.getD k default).hurdle &&& GREATHURDLE) →
      (∀ k, i ≤ k → cs'.getD k default = cs.getD k default) →
      superLoop nh cs' i ns =
        (if ∀ j, j < cs.length → i ≤ j →
            (cs.getD j default).hurdle ≠ 0 → SuperTest cs j
         then (nh, if nh = ns + countHurdlesFrom cs i ∧
              (ns + countHurdlesFrom cs i) % 2 = 1 then 1 else 0)
         else (nh, 0)) := by
  intro d
  induction d with
  | zero =>
    intro i ns cs' hd hlen hf hu
    have hile : cs.length ≤ i := by omega
    rw [superLoop_end nh cs' i ns (by omega)]
    rw [countHurdlesFrom_end cs i (by omega)]
    rw [if_pos (show ∀ j, j < cs.length → i ≤ j →
        (cs.getD j default).hurdle ≠ 0 → SuperTest cs j from
      fun j hj _ _ => absurd hj (by omega))]
    simp only [Nat.add_zero]
    by_cases hq : nh = ns ∧ ns % 2 = 1
    · rw [if_pos hq, if_pos hq]
    · rw [if_neg hq, if_neg hq]
  | succ d ih =>
    intro i ns cs' hd hlen hf hu
    by_cases hi : i < cs.length
    · rw [superLoop, dif_pos (show i < cs'.length by omega)]
      have hci : cs'.getD i default = cs.getD i default := hu i le_rfl
      simp only [hci]
      by_cases hh : (cs.getD i default).hurdle ≠ 0
      · rw [if_pos hh]
        by_cases hlr : (cs.getD i default).left = (cs.getD i default).right ∧
            (cs.getD i default).left ≠ -1
        · rw [if_pos hlr]
          have hnbb := (hf ((cs.getD i default).left.toNat)).1
          have hnbh := (hf ((cs.getD i default).left.toNat)).2.2.2
          by_cases hnb :
              (cs.getD (cs.getD i default).left.toNat default).blocks = 2 ∧
              (cs.getD (cs.getD i default).left.toNat default).hurdle &&&
                GREATHURDLE = 0
          · rw [if_pos (by rw [hnbb, hnbh]; exact hnb)]
            have hst : SuperTest cs i := ⟨hlr.1, hlr.2, hnb.1, hnb.2⟩
            rw [ih (i + 1) (ns + 1)
              (updComp cs' i
                (fun c => { c with hurdle := c.hurdle ||| SUPERHURDLE }))
              (by omega) (by rw [updComp_length]; exact hlen)
              (by
                intro k
                by_cases hk : k = i
                · subst hk
                  rw [updComp_getD_self cs' k _ (by omega), hci]
                  refine ⟨rfl, rfl, rfl, ?_⟩
                  exact or_super_and_great (cs.getD k default).hurdle
                · rw [updComp_getD_ne cs' i _ k hk]
                  exact hf k)
              (by
                intro k hk
                rw [updComp_getD_ne cs' i _ k (by omega)]
                exact hu k (by omega))]
            have harith : ns + 1 + countHurdlesFrom cs (i + 1) =
                ns + countHurdlesFrom cs i := by
              rw [countHurdlesFrom_step cs i hi, if_pos hh]
              omega
            rw [harith]
            refine if_congr ⟨?_, ?_⟩ rfl rfl
            · intro hall j hj hij hhj
              by_cases hji : j = i
              · subst hji; exact hst
              · exact hall j hj (by omega) hhj
            · intro hall j hj hij hhj
              exact hall j hj (by omega) hhj
          · rw [if_neg (by rw [hnbb, hnbh]; exact hnb)]
            rw [if_neg (fun hall => hnb ⟨(hall i hi le_rfl hh).2.2.1,
              (hall i hi le_rfl hh).2.2.2⟩)]
        · rw [if_neg hlr]
          rw [if_neg (fun hall => hlr ⟨(hall i hi le_rfl hh).1,
            (hall i hi le_rfl hh).2.1⟩)]
      · rw [if_neg hh]
        rw [ih (i + 1) ns cs' (by omega) hlen hf (fun k hk => hu k (by omega))]
        have harith : ns + countHurdlesFrom cs (i + 1) =
            ns + countHurdlesFrom cs i := by
          rw [countHurdlesFrom_step cs i hi, if_neg hh]
          omega
        rw [harith]
        refine if_congr ⟨?_, ?_⟩ rfl rfl
        · intro hall j hj hij hhj
          by_cases hji : j = i
          · subst hji; exact absurd hhj hh
          · exact hall j hj (by omega) hhj
        · intro hall j hj hij hhj
          exact hall j hj (by omega) hhj
    · have hile : cs.length ≤ i := by omega
      rw [superLoop_end nh cs' i ns (by omega)]
      rw [countHurdlesFrom_end cs i (by omega)]
      rw [if_pos (show ∀ j, j < cs.length → i ≤ j →
          (cs.getD j default).hurdle ≠ 0 → SuperTest cs j from
        fun j hj _ _ => absurd hj (by omega))]
      simp only [Nat.add_zero]
      by_cases hq : nh = ns ∧ ns % 2 = 1
      · rw [if_pos hq, if_pos hq]
      · rw [if_neg hq, if_neg hq]

/-- C2: once the hurdle count has reached at least 3, the superhurdle scan
classifies every hurdle `SUPERHURDLE` iff its left neighbor equals its right
neighbor, that neighbor is not `-1`, that neighbor has exactly two blocks, and
that neighbor does not carry `GREATHURDLE`; if every hurdle passes, the
fortress flag is 1 iff the hurdle count equals the superhurdle count (the
number of hurdles, since all passed) and that count is odd; the first hurdle
failing the test aborts the scan, returning the accumulated hurdle count with
fortress `0`. -/
theorem c2_superhurdle_fortress (cs : List component_t) (nh : Nat)
    (h3 : 3 ≤ nh) :
    superPhase cs nh =
      (if ∀ j, j < cs.length → (cs.getD j default).hurdle ≠ 0 → SuperTest cs j
       then (nh, if nh = countHurdles cs ∧ countHurdles cs % 2 = 1
         then 1 else 0)
       else (nh, 0)) := by
  have h := superLoop_char cs nh cs.length 0 0 cs (by omega) rfl
    (fun k => ⟨rfl, rfl, rfl, rfl⟩) (fun k _ => rfl)
  rw [superPhase, h]
  simp only [Nat.zero_add]
  rw [show countHurdlesFrom cs 0 = countHurdles cs from rfl]
  refine if_congr ⟨?_, ?_⟩ rfl rfl
  · intro hall j hj hhj
    exact hall j hj (by omega) hhj
  · intro hall j hj hij hhj
    exact hall j hj hhj

/-- Witness for C2: three one-block hurdles with no shared neighbor fail the
shape test at once, so the scan aborts with the hurdle count and fortress 0. -/
theorem c2_witness :
    3 ≤ 3 ∧
      superPhase
        [⟨0, false, 1, 1, -1, -1⟩, ⟨1, false, 1, 1, -1, -1⟩,
          ⟨2, false, 1, 1, -1, -1⟩] 3 =
      (if ∀ j, j < ([⟨0, false, 1, 1, -1, -1⟩, ⟨1, false, 1, 1, -1, -1⟩,
            ⟨2, false, 1, 1, -1, -1⟩] : List component_t).length →
          (([⟨0, false, 1, 1, -1, -1⟩, ⟨1, false, 1, 1, -1, -1⟩,
            ⟨2, false, 1, 1, -1, -1⟩] : List component_t).getD j
              default).hurdle ≠ 0 →
          SuperTest [⟨0, false, 1, 1, -1, -1⟩, ⟨1, false, 1, 1, -1, -1⟩,
            ⟨2, false, 1, 1, -1, -1⟩] j
       then (3, if 3 = countHurdles [⟨0, false, 1, 1, -1, -1⟩,
            ⟨1, false, 1, 1, -1, -1⟩, ⟨2, false, 1, 1, -1, -1⟩] ∧
          countHurdles [⟨0, false, 1, 1, -1, -1⟩, ⟨1, false, 1, 1, -1, -1⟩,
            ⟨2, false, 1, 1, -1, -1⟩] % 2 = 1 then 1 else 0)
       else (3, 0)) :=
  ⟨by decide,
    c2_superhurdle_fortress
      [⟨0, false, 1, 1, -1, -1⟩, ⟨1, false, 1, 1, -1, -1⟩,
        ⟨2, false, 1, 1, -1, -1⟩] 3 (by decide)⟩


theorem updComp_getD_default (cs : List component_t) (k : Nat)
    (f : component_t → component_t) (h : cs.length ≤ k) :
    (updComp cs k f).getD k default = cs.getD k default := by
  rw [List.getD_eq_default _ _ (by rw [updComp_length]; exact h),
    List.getD_eq_default _ _ h]

theorem updComp_keeps (cs : List component_t) (k : Nat)
    (f : component_t → component_t)
    (hor : ∀ c, (f c).oriented = c.oriented)
    (hhu : ∀ c, (f c).hurdle = c.hurdle)
    (j : Nat) :
    ((updComp cs k f).getD j default).oriented =
        ((cs.getD j default)).oriented ∧
      ((updComp cs k f).getD j default).hurdle = (cs.getD j default).hurdle := by
  by_cases hj : j = k
  · subst hj
    by_cases hlt : j < cs.length
    · rw [updComp_getD_self cs j f hlt]
      exact ⟨hor _, hhu _⟩
    · rw [updComp_getD_default cs j f (by omega)]
      exact ⟨rfl, rfl⟩
  · rw [updComp_getD_ne cs k f j hj]
    exact ⟨rfl, rfl⟩

theorem updComp_keeps_blocks (cs : List component_t) (k : Nat)
    (f : component_t → component_t)
    (hb : ∀ c, (f c).blocks = c.blocks) (j : Nat) :
    ((updComp cs k f).getD j default).blocks = (cs.getD j default).blocks := by
  by_cases hj : j = k
  · subst hj
    by_cases hlt : j < cs.length
    · rw [updComp_getD_self cs j f hlt]
      exact hb _
    · rw [updComp_getD_default cs j f (by omega)]
  · rw [updComp_getD_ne cs k f j hj]

/-- State invariant for the block scan: the array keeps its length, its
`oriented`/`hurdle` fields, blocks are counted only on unoriented components,
an untouched scan (`last = -1`) leaves everything unchanged, and
`first`/`last` are `-1` together and otherwise values of `cc`. -/
def BSInv (cc : Nat → Int) (cs0 : List component_t)
    (st : List component_t × Int × Int) : Prop :=
  st.1.length = cs0.length ∧
  (∀ k, ((st.1.getD k default).oriented = (cs0.getD k default).oriented ∧
    (st.1.getD k default).hurdle = (cs0.getD k default).hurdle)) ∧
  (∀ k, (st.1.getD k default).blocks ≠ 0 →
    (cs0.getD k default).oriented = false) ∧
  (st.2.2 = -1 → st.1 = cs0 ∧ st.2.1 = -1) ∧
  (st.2.1 = -1 ↔ st.2.2 = -1) ∧
  (st.2.1 = -1 ∨ 0 ≤ st.2.1) ∧ (st.2.2 = -1 ∨ 0 ≤ st.2.2)

theorem blockScan_inv (cc : Nat → Int) (cs0 : List component_t)
    (hcc : ∀ i, cc i = -1 ∨ 0 ≤ cc i) :
    ∀ (l : List Nat) (st : List component_t × Int × Int),
      BSInv cc cs0 st →
      BSInv cc cs0 (l.foldl
        (fun st i =>
          let cIdx := cc i
          if cIdx ≠ -1 then
            if (st.1.getD cIdx.toNat default).oriented = false then
              if cIdx ≠ st.2.2 then
                let cs1 := if st.2.2 = -1 then st.1
                  else updComp
                    (updComp st.1 st.2.2.toNat (fun c => { c with right := cIdx }))
                    cIdx.toNat (fun c => { c with left := st.2.2 })
                let first1 := if st.2.2 = -1 then cIdx else st.2.1
                (updComp cs1 cIdx.toNat
                  (fun c => { c with blocks := c.blocks + 1 }), first1, cIdx)
              else st
            else st
          else st) st) := by
  intro l
  induction l with
  | nil => intro st h; exact h
  | cons x xs ih =>
    intro st h
    rw [List.foldl_cons]
    apply ih
    by_cases h1 : cc x ≠ -1
    · by_cases h2 : (st.1.getD (cc x).toNat default).oriented = false
      · by_cases h3 : cc x ≠ st.2.2
        · simp only [if_pos h1, if_pos h2, if_pos h3]
          obtain ⟨hlen, hoh, hbl, hrest, hiff, hfv, hlv⟩ := h
          set cs1 := if st.2.2 = -1 then st.1
            else updComp
              (updComp st.1 st.2.2.toNat (fun c => { c with right := cc x }))
              (cc x).toNat (fun c => { c with left := st.2.2 }) with hcs1
          have hcs1len : cs1.length = cs0.length := by
            rw [hcs1]
            by_cases hlz : st.2.2 = -1
            · rw [if_pos hlz]; exact hlen
            · rw [if_neg hlz, updComp_length, updComp_length]; exact hlen
          have hcs1oh : ∀ k,
              ((cs1.getD k default).oriented = (cs0.getD k default).oriented ∧
                (cs1.getD k default).hurdle = (cs0.getD k default).hurdle) := by
            intro k
            rw [hcs1]
            by_cases hlz : st.2.2 = -1
            · rw [if_pos hlz]; exact hoh k
            · rw [if_neg hlz]
              have s1 := updComp_keeps
                (updComp st.1 st.2.2.toNat (fun c => { c with right := cc x }))
                (cc x).toNat (fun c => { c with left := st.2.2 })
                (fun c => rfl) (fun c => rfl) k
              have s2 := updComp_keeps st.1 st.2.2.toNat
                (fun c => { c with right := cc x }) (fun c => rfl) (fun c => rfl) k
              exact ⟨s1.1.trans (s2.1.trans (hoh k).1),
                s1.2.trans (s2.2.trans (hoh k).2)⟩
          have hcs1bl : ∀ k, (cs1.getD k default).blocks =
              (st.1.getD k default).blocks := by
            intro k
            rw [hcs1]
            by_cases hlz : st.2.2 = -1
            · rw [if_pos hlz]
            · rw [if_neg hlz]
              rw [updComp_keeps_blocks
                  (updComp st.1 st.2.2.toNat (fun c => { c with right := cc x }))
                  (cc x).toNat (fun c => { c with left := st.2.2 })
                  (fun c => rfl) k,
                updComp_keeps_blocks st.1 st.2.2.toNat
                  (fun c => { c with right := cc x }) (fun c => rfl) k]
          refine ⟨by rw [updComp_length]; exact hcs1len, ?_, ?_, ?_, ?_, ?_, ?_⟩
          · intro k
            have s := updComp_keeps cs1 (cc x).toNat
              (fun c => { c with blocks := c.blocks + 1 })
              (fun c => rfl) (fun c => rfl) k
            exact ⟨s.1.trans (hcs1oh k).1, s.2.trans (hcs1oh k).2⟩
          · intro k hbk
            by_cases hk : k = (cc x).toNat
            · subst hk
              rw [← (hoh ((cc x).toNat)).1]
              exact h2
            · rw [updComp_getD_ne cs1 _ _ k hk, hcs1bl k] at hbk
              exact hbl k hbk
          · intro hlz
            exact absurd hlz h1
          · constructor
            · intro hfz
              exfalso
              by_cases hlz : st.2.2 = -1
              · rw [if_pos hlz] at hfz
                exact h1 hfz
              · rw [if_neg hlz] at hfz
                exact hlz (hiff.mp hfz)
            · intro hlz
              exact absurd hlz h1
          · by_cases hlz : st.2.2 = -1
            · rw [if_pos hlz]
              rcases hcc x with hc | hc
              · exact absurd hc h1
              · exact Or.inr hc
            · rw [if_neg hlz]
              exact hfv
          · rcases hcc x with hc | hc
            · exact absurd hc h1
            · exact Or.inr hc
        · simp only [if_pos h1, if_pos h2, if_neg h3]
          exact h
      · simp only [if_pos h1, if_neg h2]
        exact h
    · simp only [if_neg h1]
      exact h

theorem blockScan_spec (cc : Nat → Int) (cs0 : List component_t)
    (size : Nat) (hcc : ∀ i, cc i = -1 ∨ 0 ≤ cc i)
    (hz : ∀ k, (cs0.getD k default).blocks = 0) :
    BSInv cc cs0 (blockScan cc cs0 size) := by
  unfold blockScan
  exact blockScan_inv cc cs0 hcc (List.range size) (cs0, -1, -1)
    ⟨rfl, fun k => ⟨rfl, rfl⟩, fun k h => absurd (hz k) h,
      fun _ => ⟨rfl, rfl⟩, Iff.rfl, Or.inl rfl, Or.inl rfl⟩

theorem markSimple_aux (cs2 : List component_t) :
    ∀ m, m ≤ cs2.length →
      ((List.range m).foldl
          (fun st i =>
            let c := st.1.getD i default
            if c.oriented = false ∧ c.blocks = 1 then
              (updComp st.1 i (fun c => { c with hurdle := HURDLE }), st.2 + 1)
            else st)
          (cs2, 0)).1.length = cs2.length ∧
      (∀ k, m ≤ k →
        ((List.range m).foldl
          (fun st i =>
            let c := st.1.getD i default
            if c.oriented = false ∧ c.blocks = 1 then
              (updComp st.1 i (fun c => { c with hurdle := HURDLE }), st.2 + 1)
            else st)
          (cs2, 0)).1.getD k default = cs2.getD k default) ∧
      (∀ k, k < m →
        ((List.range m).foldl
          (fun st i =>
            let c := st.1.getD i default
            if c.oriented = false ∧ c.blocks = 1 then
              (updComp st.1 i (fun c => { c with hurdle := HURDLE }), st.2 + 1)
            else st)
          (cs2, 0)).1.getD k default =
        (if (cs2.getD k default).oriented = false ∧
            (cs2.getD k default).blocks = 1
         then { cs2.getD k default with hurdle := HURDLE }
         else cs2.getD k default)) ∧
      ((List.range m).foldl
          (fun st i =>
            let c := st.1.getD i default
            if c.oriented = false ∧ c.blocks = 1 then
              (updComp st.1 i (fun c => { c with hurdle := HURDLE }), st.2 + 1)
            else st)
          (cs2, 0)).2 =
        (List.range m).countP
          (fun k => decide ((cs2.getD k default).oriented = false ∧
            (cs2.getD k default).blocks = 1)) := by
  intro m
  induction m with
  | zero =>
    intro _
    exact ⟨rfl, fun k _ => rfl, fun k hk => absurd hk (by omega), rfl⟩
  | succ m ih =>
    intro hm
    obtain ⟨ih1, ih2, ih3, ih4⟩ := ih (by omega)
    rw [List.range_succ, List.foldl_append, List.foldl_cons, List.foldl_nil]
    have hreadm := ih2 m le_rfl
    by_cases hc : (cs2.getD m default).oriented = false ∧
        (cs2.getD m default).blocks = 1
    · simp only [hreadm, if_pos hc]
      refine ⟨by rw [updComp_length]; exact ih1, ?_, ?_, ?_⟩
      · intro k hk
        rw [updComp_getD_ne _ _ _ k (by omega)]
        exact ih2 k (by omega)
      · intro k hk
        by_cases hkm : k = m
        · subst hkm
          rw [updComp_getD_self _ _ _ (by rw [ih1]; omega), hreadm, if_pos hc]
        · rw [updComp_getD_ne _ _ _ k hkm]
          exact ih3 k (by omega)
      · have hpm : decide ((cs2.getD m default).oriented = false ∧
            (cs2.getD m default).blocks = 1) = true := by
          rw [decide_eq_true_eq]
          exact hc
        have hsingle : List.countP
            (fun k => decide ((cs2.getD k default).oriented = false ∧
              (cs2.getD k default).blocks = 1)) [m] = 1 := by
          rw [List.countP_cons, List.countP_nil, hpm]
          rfl
        rw [List.countP_append, ih4, hsingle]
    · simp only [hreadm, if_neg hc]
      refine ⟨ih1, ?_, ?_, ?_⟩
      · intro k hk
        exact ih2 k (by omega)
      · intro k hk
        by_cases hkm : k = m
        · subst hkm
          rw [if_neg hc]
          exact ih2 k le_rfl
        · exact ih3 k (by omega)
      · have hpm : decide ((cs2.getD m default).oriented = false ∧
            (cs2.getD m default).blocks = 1) = false := by
          rw [decide_eq_false_iff_not]
          exact hc
        have hsingle : List.countP
            (fun k => decide ((cs2.getD k default).oriented = false ∧
              (cs2.getD k default).blocks = 1)) [m] = 0 := by
          rw [List.countP_cons, List.countP_nil, hpm]
          rfl
        rw [List.countP_append, ih4, hsingle]
        omega

theorem markSimple_spec (cs2 : List component_t) :
    (markSimpleHurdles cs2).1.length = cs2.length ∧
      (∀ k, cs2.length ≤ k →
        (markSimpleHurdles cs2).1.getD k default = cs2.getD k default) ∧
      (∀ k, k < cs2.length →
        (markSimpleHurdles cs2).1.getD k default =
          (if (cs2.getD k default).oriented = false ∧
              (cs2.getD k default).blocks = 1
           then { cs2.getD k default with hurdle := HURDLE }
           else cs2.getD k default)) ∧
      (markSimpleHurdles cs2).2 =
        (List.range cs2.length).countP
          (fun k => decide ((cs2.getD k default).oriented = false ∧
            (cs2.getD k default).blocks = 1)) := by
  unfold markSimpleHurdles
  exact markSimple_aux cs2 cs2.length le_rfl


theorem markPhase_char (cc : Nat → Int) (size : Nat) (cs0 : List component_t)
    (hcc : ∀ i, cc i = -1 ∨ 0 ≤ cc i)
    (hz : ∀ k, (cs0.getD k default).blocks = 0 ∧
      (cs0.getD k default).hurdle = 0) :
    (∀ k, k < cs0.length →
      (((markGreatHurdle (markSimpleHurdles (blockScan cc cs0 size).1).1
          (blockScan cc cs0 size).2.1 (blockScan cc cs0 size).2.2
          (markSimpleHurdles (blockScan cc cs0 size).1).2).1.getD k
            default).hurdle = HURDLE ↔
        ((blockScan cc cs0 size).1.getD k default).blocks = 1)) ∧
    (∀ k, k < cs0.length →
      (((markGreatHurdle (markSimpleHurdles (blockScan cc cs0 size).1).1
          (blockScan cc cs0 size).2.1 (blockScan cc cs0 size).2.2
          (markSimpleHurdles (blockScan cc cs0 size).1).2).1.getD k
            default).hurdle = HURDLE ||| GREATHURDLE ↔
        ((blockScan cc cs0 size).2.1 = (blockScan cc cs0 size).2.2 ∧
          (k : Int) = (blockScan cc cs0 size).2.1 ∧
          ((blockScan cc cs0 size).1.getD k default).blocks = 2))) ∧
    (markGreatHurdle (markSimpleHurdles (blockScan cc cs0 size).1).1
        (blockScan cc cs0 size).2.1 (blockScan cc cs0 size).2.2
        (markSimpleHurdles (blockScan cc cs0 size).1).2).2 =
      (List.range cs0.length).countP
          (fun k => ((blockScan cc cs0 size).1.getD k default).blocks == 1) +
        (if (blockScan cc cs0 size).2.1 = (blockScan cc cs0 size).2.2 ∧
            ((blockScan cc cs0 size).1.getD
              (blockScan cc cs0 size).2.1.toNat default).blocks = 2
         then 1 else 0) := by
  obtain ⟨ilen, ioh, ibl, iuntouched, iiff, ifv, ilv⟩ :=
    blockScan_spec cc cs0 size hcc (fun k => (hz k).1)
  obtain ⟨mlen, mhigh, mlow, mcount⟩ :=
    markSimple_spec (blockScan cc cs0 size).1
  have hhz0 : ∀ k, ((blockScan cc cs0 size).1.getD k default).hurdle = 0 :=
    fun k => (ioh k).2.trans (hz k).2
  have hb1un : ∀ k, ((blockScan cc cs0 size).1.getD k default).blocks = 1 →
      ((blockScan cc cs0 size).1.getD k default).oriented = false := by
    intro k hbk
    rw [(ioh k).1]
    exact ibl k (by omega)
  have mshur : ∀ k, k < cs0.length →
      ((markSimpleHurdles (blockScan cc cs0 size).1).1.getD k default).hurdle =
        (if ((blockScan cc cs0 size).1.getD k default).blocks = 1
         then HURDLE else 0) := by
    intro k hk
    rw [mlow k (by omega)]
    by_cases hbk : ((blockScan cc cs0 size).1.getD k default).blocks = 1
    · rw [if_pos ⟨hb1un k hbk, hbk⟩, if_pos hbk]
    · rw [if_neg (fun hcj => hbk hcj.2), if_neg hbk]
      exact hhz0 k
  have msbl : ∀ k,
      ((markSimpleHurdles (blockScan cc cs0 size).1).1.getD k default).blocks =
        ((blockScan cc cs0 size).1.getD k default).blocks := by
    intro k
    by_cases hk : k < cs0.length
    · rw [mlow k (by omega)]
      by_cases hcj : ((blockScan cc cs0 size).1.getD k default).oriented =
          false ∧ ((blockScan cc cs0 size).1.getD k default).blocks = 1
      · rw [if_pos hcj]
      · rw [if_neg hcj]
    · rw [mhigh k (by omega)]
  have hcnt : (markSimpleHurdles (blockScan cc cs0 size).1).2 =
      (List.range cs0.length).countP
        (fun k => ((blockScan cc cs0 size).1.getD k default).blocks == 1) := by
    rw [mcount, ilen]
    apply List.countP_congr
    intro k hk
    rw [List.mem_range] at hk
    constructor
    · intro hd
      rw [decide_eq_true_eq] at hd
      rw [beq_iff_eq]
      exact hd.2
    · intro hd
      rw [beq_iff_eq] at hd
      rw [decide_eq_true_eq]
      exact ⟨hb1un k hd, hd⟩
  by_cases hgreat : (blockScan cc cs0 size).2.1 = (blockScan cc cs0 size).2.2 ∧
      ((markSimpleHurdles (blockScan cc cs0 size).1).1.getD
        (blockScan cc cs0 size).2.1.toNat default).blocks = 2
  · have hgreat' : (blockScan cc cs0 size).2.1 = (blockScan cc cs0 size).2.2 ∧
        ((blockScan cc cs0 size).1.getD
          (blockScan cc cs0 size).2.1.toNat default).blocks = 2 :=
      ⟨hgreat.1, (msbl _).symm.trans hgreat.2⟩
    have hfne : (blockScan cc cs0 size).2.1 ≠ -1 := by
      intro hf
      obtain ⟨heq, _⟩ := iuntouched (iiff.mp hf)
      have h2' := hgreat'.2
      rw [heq] at h2'
      have h0 := (hz ((blockScan cc cs0 size).2.1.toNat)).1
      omega
    have hfnn : 0 ≤ (blockScan cc cs0 size).2.1 := by
      rcases ifv with h | h
      · exact absurd h hfne
      · exact h
    have hfnat : (((blockScan cc cs0 size).2.1.toNat : Nat) : Int) =
        (blockScan cc cs0 size).2.1 := Int.toNat_of_nonneg hfnn
    have hftlt : (blockScan cc cs0 size).2.1.toNat <
        (markSimpleHurdles (blockScan cc cs0 size).1).1.length := by
      by_contra hge
      rw [List.getD_eq_default _ _ (by omega)] at hgreat
      exact absurd hgreat.2 (by decide)
    have hmgeq : markGreatHurdle (markSimpleHurdles (blockScan cc cs0 size).1).1
        (blockScan cc cs0 size).2.1 (blockScan cc cs0 size).2.2
        (markSimpleHurdles (blockScan cc cs0 size).1).2 =
        (updComp (markSimpleHurdles (blockScan cc cs0 size).1).1
          (blockScan cc cs0 size).2.1.toNat
          (fun c => { c with hurdle := HURDLE ||| GREATHURDLE }),
         (markSimpleHurdles (blockScan cc cs0 size).1).2 + 1) := by
      unfold markGreatHurdle
      rw [if_pos hgreat]
    rw [hmgeq]
    refine ⟨?_, ?_, ?_⟩
    · intro k hk
      by_cases hkf : k = (blockScan cc cs0 size).2.1.toNat
      · subst hkf
        rw [updComp_getD_self _ _ _ hftlt]
        dsimp only
        constructor
        · intro hcontra
          exact absurd hcontra (by decide)
        · intro hbk
          rw [hgreat'.2] at hbk
          exact absurd hbk (by decide)
      · rw [updComp_getD_ne _ _ _ k hkf, mshur k hk]
        by_cases hbk : ((blockScan cc cs0 size).1.getD k default).blocks = 1
        · rw [if_pos hbk]
          exact ⟨fun _ => hbk, fun _ => rfl⟩
        · rw [if_neg hbk]
          exact ⟨fun hcontra => absurd hcontra (by decide),
            fun hcontra => absurd hcontra hbk⟩
    · intro k hk
      by_cases hkf : k = (blockScan cc cs0 size).2.1.toNat
      · subst hkf
        rw [updComp_getD_self _ _ _ hftlt]
        dsimp only
        constructor
        · intro _
          exact ⟨hgreat'.1, hfnat, hgreat'.2⟩
        · intro _
          rfl
      · rw [updComp_getD_ne _ _ _ k hkf, mshur k hk]
        constructor
        · intro hcontra
          by_cases hbk : ((blockScan cc cs0 size).1.getD k default).blocks = 1
          · rw [if_pos hbk] at hcontra
            exact absurd hcontra (by decide)
          · rw [if_neg hbk] at hcontra
            exact absurd hcontra (by decide)
        · intro ⟨_, hkI, _⟩
          exact absurd (by omega : k = (blockScan cc cs0 size).2.1.toNat) hkf
    · rw [hcnt]
      rw [if_pos hgreat']
  · have hgreat' : ¬ ((blockScan cc cs0 size).2.1 =
        (blockScan cc cs0 size).2.2 ∧
        ((blockScan cc cs0 size).1.getD
          (blockScan cc cs0 size).2.1.toNat default).blocks = 2) := by
      intro hcj
      exact hgreat ⟨hcj.1, (msbl _).trans hcj.2⟩
    have hmgeq : markGreatHurdle (markSimpleHurdles (blockScan cc cs0 size).1).1
        (blockScan cc cs0 size).2.1 (blockScan cc cs0 size).2.2
        (markSimpleHurdles (blockScan cc cs0 size).1).2 =
        ((markSimpleHurdles (blockScan cc cs0 size).1).1,
         (markSimpleHurdles (blockScan cc cs0 size).1).2) := by
      unfold markGreatHurdle
      rw [if_neg hgreat]
    rw [hmgeq]
    refine ⟨?_, ?_, ?_⟩
    · intro k hk
      rw [mshur k hk]
      by_cases hbk : ((blockScan cc cs0 size).1.getD k default).blocks = 1
      · rw [if_pos hbk]
        exact ⟨fun _ => hbk, fun _ => rfl⟩
      · rw [if_neg hbk]
        exact ⟨fun hcontra => absurd hcontra (by decide),
          fun hcontra => absurd hcontra hbk⟩
    · intro k hk
      rw [mshur k hk]
      constructor
      · intro hcontra
        by_cases hbk : ((blockScan cc cs0 size).1.getD k default).blocks = 1
        · rw [if_pos hbk] at hcontra
          exact absurd hcontra (by decide)
        · rw [if_neg hbk] at hcontra
          exact absurd hcontra (by decide)
      · intro ⟨hfl, hkI, hb2⟩
        exfalso
        apply hgreat'
        refine ⟨hfl, ?_⟩
        rw [show (blockScan cc cs0 size).2.1.toNat = k by omega]
        exact hb2
    · rw [hcnt, if_neg hgreat']
      omega

theorem nhf_cutoff (ge : Nat → Int) (cyc : Nat → Nat) (size : Nat)
    (h1 : ¬ (connected_component ge cyc size).1.length = 0)
    (h2 : ¬ (((List.range size).foldl
      (fun cs i =>
        if orientedMap ge size i then
          updComp cs ((connected_component ge cyc size).2 i).toNat
            (fun c => { c with oriented := true })
        else cs)
      ((connected_component ge cyc size).1.map
        (fun r => { index := r }))).filter
        (fun c => c.oriented = false)).length = 0)
    (h3 : (markGreatHurdle
        (markSimpleHurdles (blockScan (connected_component ge cyc size).2
          ((List.range size).foldl
            (fun cs i =>
              if orientedMap ge size i then
                updComp cs ((connected_component ge cyc size).2 i).toNat
                  (fun c => { c with oriented := true })
              else cs)
            ((connected_component ge cyc size).1.map
              (fun r => { index := r }))) size).1).1
        (blockScan (connected_component ge cyc size).2
          ((List.range size).foldl
            (fun cs i =>
              if orientedMap ge size i then
                updComp cs ((connected_component ge cyc size).2 i).toNat
                  (fun c => { c with oriented := true })
              else cs)
            ((connected_component ge cyc size).1.map
              (fun r => { index := r }))) size).2.1
        (blockScan (connected_component ge cyc size).2
          ((List.range size).foldl
            (fun cs i =>
              if orientedMap ge size i then
                updComp cs ((connected_component ge cyc size).2 i).toNat
                  (fun c => { c with oriented := true })
              else cs)
            ((connected_component ge cyc size).1.map
              (fun r => { index := r }))) size).2.2
        (markSimpleHurdles (blockScan (connected_component ge cyc size).2
          ((List.range size).foldl
            (fun cs i =>
              if orientedMap ge size i then
                updComp cs ((connected_component ge cyc size).2 i).toNat
                  (fun c => { c with oriented := true })
              else cs)
            ((connected_component ge cyc size).1.map
              (fun r => { index := r }))) size).1).2).2 < 3) :
    num_hurdles_and_fortress ge cyc size =
      ((markGreatHurdle
        (markSimpleHurdles (blockScan (connected_component ge cyc size).2
          ((List.range size).foldl
            (fun cs i =>
              if orientedMap ge size i then
                updComp cs ((connected_component ge cyc size).2 i).toNat
                  (fun c => { c with oriented := true })
              else cs)
            ((connected_component ge cyc size).1.map
              (fun r => { index := r }))) size).1).1
        (blockScan (connected_component ge cyc size).2
          ((List.range size).foldl
            (fun cs i =>
              if orientedMap ge size i then
                updComp cs ((connected_component ge cyc size).2 i).toNat
                  (fun c => { c with oriented := true })
              else cs)
            ((connected_component ge cyc size).1.map
              (fun r => { index := r }))) size).2.1
        (blockScan (connected_component ge cyc size).2
          ((List.range size).foldl
            (fun cs i =>
              if orientedMap ge size i then
                updComp cs ((connected_component ge cyc size).2 i).toNat
                  (fun c => { c with oriented := true })
              else cs)
            ((connected_component ge cyc size).1.map
              (fun r => { index := r }))) size).2.2
        (markSimpleHurdles (blockScan (connected_component ge cyc size).2
          ((List.range size).foldl
            (fun cs i =>
              if orientedMap ge size i then
                updComp cs ((connected_component ge cyc size).2 i).toNat
                  (fun c => { c with oriented := true })
              else cs)
            ((connected_component ge cyc size).1.map
              (fun r => { index := r }))) size).1).2).2, 0) := by
  unfold num_hurdles_and_fortress
  dsimp only
  rw [if_neg h1, if_neg h2, if_pos h3]

/-- C3: after the block scan over unoriented components a component is
marked `HURDLE` iff its block count is 1; if the first and last unoriented
components of the scan coincide and that component has two blocks it is marked
`HURDLE|GREATHURDLE` and counted as a hurdle; and when the resulting hurdle
count is below 3, `num_hurdles_and_fortress` returns those counts with
fortress `0`, performing no superhurdle or fortress test. -/
theorem c3_hurdle_marking_and_cutoff :
    (∀ (cc : Nat → Int) (size : Nat) (cs0 : List component_t),
      (∀ i, cc i = -1 ∨ 0 ≤ cc i) →
      (∀ k, (cs0.getD k default).blocks = 0 ∧
        (cs0.getD k default).hurdle = 0) →
      ((∀ k, k < cs0.length →
        (((markGreatHurdle (markSimpleHurdles (blockScan cc cs0 size).1).1
          (blockScan cc cs0 size).2.1 (blockScan cc cs0 size).2.2
          (markSimpleHurdles (blockScan cc cs0 size).1).2).1.getD k default).hurdle = HURDLE ↔
          ((blockScan cc cs0 size).1.getD k default).blocks = 1)) ∧
      (∀ k, k < cs0.length →
        (((markGreatHurdle (markSimpleHurdles (blockScan cc cs0 size).1).1
          (blockScan cc cs0 size).2.1 (blockScan cc cs0 size).2.2
          (markSimpleHurdles (blockScan cc cs0 size).1).2).1.getD k default).hurdle = HURDLE ||| GREATHURDLE ↔
          ((blockScan cc cs0 size).2.1 = (blockScan cc cs0 size).2.2 ∧
            (k : Int) = (blockScan cc cs0 size).2.1 ∧
            ((blockScan cc cs0 size).1.getD k default).blocks = 2))) ∧
      (markGreatHurdle (markSimpleHurdles (blockScan cc cs0 size).1).1
          (blockScan cc cs0 size).2.1 (blockScan cc cs0 size).2.2
          (markSimpleHurdles (blockScan cc cs0 size).1).2).2 =
        (List.range cs0.length).countP
            (fun k => ((blockScan cc cs0 size).1.getD k default).blocks == 1) +
          (if (blockScan cc cs0 size).2.1 = (blockScan cc cs0 size).2.2 ∧
              ((blockScan cc cs0 size).1.getD (blockScan cc cs0 size).2.1.toNat default).blocks = 2
           then 1 else 0))) ∧
    (∀ (ge : Nat → Int) (cyc : Nat → Nat) (size : Nat),
      ¬ (connected_component ge cyc size).1.length = 0 →
      ¬ (((List.range size).foldl
            (fun cs i =>
              if orientedMap ge size i then
                updComp cs ((connected_component ge cyc size).2 i).toNat
                  (fun c => { c with oriented := true })
              else cs)
            ((connected_component ge cyc size).1.map
              (fun r => { index := r }))).filter
          (fun c => c.oriented = false)).length = 0 →
      (markGreatHurdle
        (markSimpleHurdles (blockScan (connected_component ge cyc size).2
          ((List.range size).foldl
            (fun cs i =>
              if orientedMap ge size i then
                updComp cs ((connected_component ge cyc size).2 i).toNat
                  (fun c => { c with oriented := true })
              else cs)
            ((connected_component ge cyc size).1.map
              (fun r => { index := r }))) size).1).1
        (blockScan (connected_component ge cyc size).2
          ((List.range size).foldl
            (fun cs i =>
              if orientedMap ge size i then
                updComp cs ((connected_component ge cyc size).2 i).toNat
                  (fun c => { c with oriented := true })
              else cs)
            ((connected_component ge cyc size).1.map
              (fun r => { index := r }))) size).2.1
        (blockScan (connected_component ge cyc size).2
          ((List.range size).foldl
            (fun cs i =>
              if orientedMap ge size i then
                updComp cs ((connected_component ge cyc size).2 i).toNat
                  (fun c => { c with oriented := true })
              else cs)
            ((connected_component ge cyc size).1.map
              (fun r => { index := r }))) size).2.2
        (markSimpleHurdles (blockScan (connected_component ge cyc size).2
          ((List.range size).foldl
            (fun cs i =>
              if orientedMap ge size i then
                updComp cs ((connected_component ge cyc size).2 i).toNat
                  (fun c => { c with oriented := true })
              else cs)
            ((connected_component ge cyc size).1.map
              (fun r => { index := r }))) size).1).2).2 < 3 →
      num_hurdles_and_fortress ge cyc size = ((markGreatHurdle
        (markSimpleHurdles (blockScan (connected_component ge cyc size).2
          ((List.range size).foldl
            (fun cs i =>
              if orientedMap ge size i then
                updComp cs ((connected_component ge cyc size).2 i).toNat
                  (fun c => { c with oriented := true })
              else cs)
            ((connected_component ge cyc size).1.map
              (fun r => { index := r }))) size).1).1
        (blockScan (connected_component ge cyc size).2
          ((List.range size).foldl
            (fun cs i =>
              if orientedMap ge size i then
                updComp cs ((connected_component ge cyc size).2 i).toNat
                  (fun c => { c with oriented := true })
              else cs)
            ((connected_component ge cyc size).1.map
              (fun r => { index := r }))) size).2.1
        (blockScan (connected_component ge cyc size).2
          ((List.range size).foldl
            (fun cs i =>
              if orientedMap ge size i then
                updComp cs ((connected_component ge cyc size).2 i).toNat
                  (fun c => { c with oriented := true })
              else cs)
            ((connected_component ge cyc size).1.map
              (fun r => { index := r }))) size).2.2
        (markSimpleHurdles (blockScan (connected_component ge cyc size).2
          ((List.range size).foldl
            (fun cs i =>
              if orientedMap ge size i then
                updComp cs ((connected_component ge cyc size).2 i).toNat
                  (fun c => { c with oriented := true })
              else cs)
            ((connected_component ge cyc size).1.map
              (fun r => { index := r }))) size).1).2).2, 0)) :=
  ⟨fun cc size cs0 hcc hz => markPhase_char cc size cs0 hcc hz,
    fun ge cyc size h1 h2 h3 => nhf_cutoff ge cyc size h1 h2 h3⟩

/-- Witness for C3: a one-component scan for the marking clauses, and the
two-gene transposition pipeline (one hurdle, below the cutoff) for the early
return. -/
theorem c3_witness :
    ((∀ i, (fun i => if i < 2 then 0 else -1) i = -1 ∨ 0 ≤ (fun i => if i < 2 then 0 else -1) i) ∧
      (∀ k, (([(⟨0, false, 0, 0, -1, -1⟩ : component_t)]).getD k default).blocks = 0 ∧
        (([(⟨0, false, 0, 0, -1, -1⟩ : component_t)]).getD k default).hurdle = 0) ∧
      (∀ k, k < ([(⟨0, false, 0, 0, -1, -1⟩ : component_t)]).length →
        (((markGreatHurdle (markSimpleHurdles (blockScan (fun i => if i < 2 then 0 else -1) [(⟨0, false, 0, 0, -1, -1⟩ : component_t)] 2).1).1
          (blockScan (fun i => if i < 2 then 0 else -1) [(⟨0, false, 0, 0, -1, -1⟩ : component_t)] 2).2.1 (blockScan (fun i => if i < 2 then 0 else -1) [(⟨0, false, 0, 0, -1, -1⟩ : component_t)] 2).2.2
          (markSimpleHurdles (blockScan (fun i => if i < 2 then 0 else -1) [(⟨0, false, 0, 0, -1, -1⟩ : component_t)] 2).1).2).1.getD k default).hurdle = HURDLE ↔
          ((blockScan (fun i => if i < 2 then 0 else -1) [(⟨0, false, 0, 0, -1, -1⟩ : component_t)] 2).1.getD k default).blocks = 1))) ∧
    (¬ (connected_component (mkGreyEdges (buildPerm ⟨[2, 1], false⟩ ⟨[1, 2], false⟩ 0) 6) (cycleLabels (buildPerm ⟨[2, 1], false⟩ ⟨[1, 2], false⟩ 0) 6) 6).1.length = 0 ∧
      (markGreatHurdle
        (markSimpleHurdles (blockScan (connected_component (mkGreyEdges (buildPerm ⟨[2, 1], false⟩ ⟨[1, 2], false⟩ 0) 6) (cycleLabels (buildPerm ⟨[2, 1], false⟩ ⟨[1, 2], false⟩ 0) 6) 6).2
          ((List.range 6).foldl
            (fun cs i =>
              if orientedMap (mkGreyEdges (buildPerm ⟨[2, 1], false⟩ ⟨[1, 2], false⟩ 0) 6) 6 i then
                updComp cs ((connected_component (mkGreyEdges (buildPerm ⟨[2, 1], false⟩ ⟨[1, 2], false⟩ 0) 6) (cycleLabels (buildPerm ⟨[2, 1], false⟩ ⟨[1, 2], false⟩ 0) 6) 6).2 i).toNat
                  (fun c => { c with oriented := true })
              else cs)
            ((connected_component (mkGreyEdges (buildPerm ⟨[2, 1], false⟩ ⟨[1, 2], false⟩ 0) 6) (cycleLabels (buildPerm ⟨[2, 1], false⟩ ⟨[1, 2], false⟩ 0) 6) 6).1.map
              (fun r => { index := r }))) 6).1).1
        (blockScan (connected_component (mkGreyEdges (buildPerm ⟨[2, 1], false⟩ ⟨[1, 2], false⟩ 0) 6) (cycleLabels (buildPerm ⟨[2, 1], false⟩ ⟨[1, 2], false⟩ 0) 6) 6).2
          ((List.range 6).foldl
            (fun cs i =>
              if orientedMap (mkGreyEdges (buildPerm ⟨[2, 1], false⟩ ⟨[1, 2], false⟩ 0) 6) 6 i then
                updComp cs ((connected_component (mkGreyEdges (buildPerm ⟨[2, 1], false⟩ ⟨[1, 2], false⟩ 0) 6) (cycleLabels (buildPerm ⟨[2, 1], false⟩ ⟨[1, 2], false⟩ 0) 6) 6).2 i).toNat
                  (fun c => { c with oriented := true })
              else cs)
            ((connected_component (mkGreyEdges (buildPerm ⟨[2, 1], false⟩ ⟨[1, 2], false⟩ 0) 6) (cycleLabels (buildPerm ⟨[2, 1], false⟩ ⟨[1, 2], false⟩ 0) 6) 6).1.map
              (fun r => { index := r }))) 6).2.1
        (blockScan (connected_component (mkGreyEdges (buildPerm ⟨[2, 1], false⟩ ⟨[1, 2], false⟩ 0) 6) (cycleLabels (buildPerm ⟨[2, 1], false⟩ ⟨[1, 2], false⟩ 0) 6) 6).2
          ((List.range 6).foldl
            (fun cs i =>
              if orientedMap (mkGreyEdges (buildPerm ⟨[2, 1], false⟩ ⟨[1, 2], false⟩ 0) 6) 6 i then
                updComp cs ((connected_component (mkGreyEdges (buildPerm ⟨[2, 1], false⟩ ⟨[1, 2], false⟩ 0) 6) (cycleLabels (buildPerm ⟨[2, 1], false⟩ ⟨[1, 2], false⟩ 0) 6) 6).2 i).toNat
                  (fun c => { c with oriented := true })
              else cs)
            ((connected_component (mkGreyEdges (buildPerm ⟨[2, 1], false⟩ ⟨[1, 2], false⟩ 0) 6) (cycleLabels (buildPerm ⟨[2, 1], false⟩ ⟨[1, 2], false⟩ 0) 6) 6).1.map
              (fun r => { index := r }))) 6).2.2
        (markSimpleHurdles (blockScan (connected_component (mkGreyEdges (buildPerm ⟨[2, 1], false⟩ ⟨[1, 2], false⟩ 0) 6) (cycleLabels (buildPerm ⟨[2, 1], false⟩ ⟨[1, 2], false⟩ 0) 6) 6).2
          ((List.range 6).foldl
            (fun cs i =>
              if orientedMap (mkGreyEdges (buildPerm ⟨[2, 1], false⟩ ⟨[1, 2], false⟩ 0) 6) 6 i then
                updComp cs ((connected_component (mkGreyEdges (buildPerm ⟨[2, 1], false⟩ ⟨[1, 2], false⟩ 0) 6) (cycleLabels (buildPerm ⟨[2, 1], false⟩ ⟨[1, 2], false⟩ 0) 6) 6).2 i).toNat
                  (fun c => { c with oriented := true })
              else cs)
            ((connected_component (mkGreyEdges (buildPerm ⟨[2, 1], false⟩ ⟨[1, 2], false⟩ 0) 6) (cycleLabels (buildPerm ⟨[2, 1], false⟩ ⟨[1, 2], false⟩ 0) 6) 6).1.map
              (fun r => { index := r }))) 6).1).2).2 < 3 ∧
      num_hurdles_and_fortress (mkGreyEdges (buildPerm ⟨[2, 1], false⟩ ⟨[1, 2], false⟩ 0) 6) (cycleLabels (buildPerm ⟨[2, 1], false⟩ ⟨[1, 2], false⟩ 0) 6) 6 = ((markGreatHurdle
        (markSimpleHurdles (blockScan (connected_component (mkGreyEdges (buildPerm ⟨[2, 1], false⟩ ⟨[1, 2], false⟩ 0) 6) (cycleLabels (buildPerm ⟨[2, 1], false⟩ ⟨[1, 2], false⟩ 0) 6) 6).2
          ((List.range 6).foldl
            (fun cs i =>
              if orientedMap (mkGreyEdges (buildPerm ⟨[2, 1], false⟩ ⟨[1, 2], false⟩ 0) 6) 6 i then
                updComp cs ((connected_component (mkGreyEdges (buildPerm ⟨[2, 1], false⟩ ⟨[1, 2], false⟩ 0) 6) (cycleLabels (buildPerm ⟨[2, 1], false⟩ ⟨[1, 2], false⟩ 0) 6) 6).2 i).toNat
                  (fun c => { c with oriented := true })
              else cs)
            ((connected_component (mkGreyEdges (buildPerm ⟨[2, 1], false⟩ ⟨[1, 2], false⟩ 0) 6) (cycleLabels (buildPerm ⟨[2, 1], false⟩ ⟨[1, 2], false⟩ 0) 6) 6).1.map
              (fun r => { index := r }))) 6).1).1
        (blockScan (connected_component (mkGreyEdges (buildPerm ⟨[2, 1], false⟩ ⟨[1, 2], false⟩ 0) 6) (cycleLabels (buildPerm ⟨[2, 1], false⟩ ⟨[1, 2], false⟩ 0) 6) 6).2
          ((List.range 6).foldl
            (fun cs i =>
              if orientedMap (mkGreyEdges (buildPerm ⟨[2, 1], false⟩ ⟨[1, 2], false⟩ 0) 6) 6 i then
                updComp cs ((connected_component (mkGreyEdges (buildPerm ⟨[2, 1], false⟩ ⟨[1, 2], false⟩ 0) 6) (cycleLabels (buildPerm ⟨[2, 1], false⟩ ⟨[1, 2], false⟩ 0) 6) 6).2 i).toNat
                  (fun c => { c with oriented := true })
              else cs)
            ((connected_component (mkGreyEdges (buildPerm ⟨[2, 1], false⟩ ⟨[1, 2], false⟩ 0) 6) (cycleLabels (buildPerm ⟨[2, 1], false⟩ ⟨[1, 2], false⟩ 0) 6) 6).1.map
              (fun r => { index := r }))) 6).2.1
        (blockScan (connected_component (mkGreyEdges (buildPerm ⟨[2, 1], false⟩ ⟨[1, 2], false⟩ 0) 6) (cycleLabels (buildPerm ⟨[2, 1], false⟩ ⟨[1, 2], false⟩ 0) 6) 6).2
          ((List.range 6).foldl
            (fun cs i =>
              if orientedMap (mkGreyEdges (buildPerm ⟨[2, 1], false⟩ ⟨[1, 2], false⟩ 0) 6) 6 i then
                updComp cs ((connected_component (mkGreyEdges (buildPerm ⟨[2, 1], false⟩ ⟨[1, 2], false⟩ 0) 6) (cycleLabels (buildPerm ⟨[2, 1], false⟩ ⟨[1, 2], false⟩ 0) 6) 6).2 i).toNat
                  (fun c => { c with oriented := true })
              else cs)
            ((connected_component (mkGreyEdges (buildPerm ⟨[2, 1], false⟩ ⟨[1, 2], false⟩ 0) 6) (cycleLabels (buildPerm ⟨[2, 1], false⟩ ⟨[1, 2], false⟩ 0) 6) 6).1.map
              (fun r => { index := r }))) 6).2.2
        (markSimpleHurdles (blockScan (connected_component (mkGreyEdges (buildPerm ⟨[2, 1], false⟩ ⟨[1, 2], false⟩ 0) 6) (cycleLabels (buildPerm ⟨[2, 1], false⟩ ⟨[1, 2], false⟩ 0) 6) 6).2
          ((List.range 6).foldl
            (fun cs i =>
              if orientedMap (mkGreyEdges (buildPerm ⟨[2, 1], false⟩ ⟨[1, 2], false⟩ 0) 6) 6 i then
                updComp cs ((connected_component (mkGreyEdges (buildPerm ⟨[2, 1], false⟩ ⟨[1, 2], false⟩ 0) 6) (cycleLabels (buildPerm ⟨[2, 1], false⟩ ⟨[1, 2], false⟩ 0) 6) 6).2 i).toNat
                  (fun c => { c with oriented := true })
              else cs)
            ((connected_component (mkGreyEdges (buildPerm ⟨[2, 1], false⟩ ⟨[1, 2], false⟩ 0) 6) (cycleLabels (buildPerm ⟨[2, 1], false⟩ ⟨[1, 2], false⟩ 0) 6) 6).1.map
              (fun r => { index := r }))) 6).1).2).2, 0)) := by
  have hcc : ∀ i, (fun i => if i < 2 then 0 else -1) i = -1 ∨ 0 ≤ (fun i => if i < 2 then 0 else -1) i := by
    intro i
    by_cases h : i < 2
    · exact Or.inr (by simp [h])
    · exact Or.inl (by simp [h])
  have hz : ∀ k, (([(⟨0, false, 0, 0, -1, -1⟩ : component_t)]).getD k default).blocks = 0 ∧
      (([(⟨0, false, 0, 0, -1, -1⟩ : component_t)]).getD k default).hurdle = 0 := by
    intro k
    cases k with
    | zero => exact ⟨rfl, rfl⟩
    | succ n =>
      rw [List.getD_eq_default _ _ (by simp)]
      exact ⟨rfl, rfl⟩
  refine ⟨⟨hcc, hz, (c3_hurdle_marking_and_cutoff.1 (fun i => if i < 2 then 0 else -1) 2 [(⟨0, false, 0, 0, -1, -1⟩ : component_t)] hcc hz).1⟩,
    ⟨by decide, by decide,
      c3_hurdle_marking_and_cutoff.2 (mkGreyEdges (buildPerm ⟨[2, 1], false⟩ ⟨[1, 2], false⟩ 0) 6) (cycleLabels (buildPerm ⟨[2, 1], false⟩ ⟨[1, 2], false⟩ 0) 6) 6
        (by decide) (by decide) (by decide)⟩⟩

end BioGeneorder
